import Mathlib

/-!
# Clinician invites (`api/clinicianInvites.go`)

A shallow embedding of the clinician-invite handlers of hydrophone and the
properties of its authorization guard and invite orchestrator.

Every handler is a pure function of the answers of its collaborators (the
clinic service, the identity service, the confirmation store, the mailer),
collected in `Env`, and of the request. It returns the ordered list of the
calls it made and of the writes to the response (`Effect`), the final contents
of the confirmation object it worked on, and whether it ended in a Go run-time
panic (nil dereference, index out of range, a status code that `WriteHeader`
refuses).
-/

namespace Hydrophone

/-! ## Data model -/

/-- Values of `models.Status`. `unset` is the zero value of the Go string type,
which is what a filter struct carries when the field is not given. -/
inductive Status where
  | unset
  | StatusPending
  | StatusCompleted
  | StatusDeclined
  | StatusCanceled
deriving DecidableEq, Repr

/-- Values of `models.Type`; only the clinician invite type is used here.
`unset` is the zero value. -/
inductive ConfirmationType where
  | unset
  | TypeClinicianInvite
  | TypeOther (name : String)
deriving DecidableEq, Repr

/-- Values of `models.TemplateName`. -/
inductive TemplateName where
  | unset
  | TemplateNameClinicianInvite
deriving DecidableEq, Repr

/-- The `Profile` snapshot of a creator. -/
structure Profile where
  FullName : String
deriving DecidableEq, Repr

/-- The `Creator` snapshot of `models.Confirmation`. -/
structure Creator where
  Profile : Profile
  UserId : String
  ClinicId : String
  ClinicName : String
deriving DecidableEq, Repr

/-- The fields of `models.Confirmation` that the handlers read or write. The same
struct is used as a store filter, with zero values for the fields left out. -/
structure Confirmation where
  /-- The externally visible id field that the listing of invitations fills. -/
  Id : String
  Key : String
  Type' : ConfirmationType
  TemplateName : TemplateName
  Status : Status
  Email : String
  UserId : String
  ClinicId : String
  CreatorId : String
  Creator : Creator
deriving DecidableEq, Repr

/-- The Go zero value of `models.Confirmation`. -/
def Confirmation.zero : Confirmation :=
  { Id := "", Key := "", Type' := .unset, TemplateName := .unset, Status := .unset,
    Email := "", UserId := "", ClinicId := "", CreatorId := "",
    Creator := { Profile := { FullName := "" }, UserId := "", ClinicId := "", ClinicName := "" } }

/-- Modelled from the spec: `models.NewConfirmation` is not part of the sources.
It builds a confirmation of the given type with a freshly generated `Key` (here
the key handed in), status `Pending` and the creator id. The handlers discard
its error result. -/
def NewConfirmation (freshKey : String) (theType : ConfirmationType)
    (templateName : TemplateName) (creatorId : String) : Confirmation :=
  { Confirmation.zero with
    Key := freshKey, Type' := theType, TemplateName := templateName,
    CreatorId := creatorId, Status := .StatusPending }

/-- Modelled from the spec: `(*Confirmation).UpdateStatus` is not part of the
sources. It moves the confirmation to the new status. -/
def Confirmation.UpdateStatus (c : Confirmation) (newStatus : Hydrophone.Status) : Confirmation :=
  { c with Status := newStatus }

/-- The token data of shoreline: `shoreline.TokenData`. -/
structure TokenData where
  UserID : String
  IsServer : Bool
deriving DecidableEq, Repr

/-- The account data of shoreline: `shoreline.UserData`. -/
structure UserData where
  UserID : String
  Emails : List String
deriving DecidableEq, Repr

/-- The request body of `SendClinicianInvite`. -/
structure ClinicianInvite where
  Email : String
  Roles : List String
deriving DecidableEq, Repr

/-- A Go `error` value that is not nil, by its message. -/
abbrev GoError := String

/-! ## Responses of the clinic service client -/

/-- The `JSON200` payload of `GetClinicianResponse`. -/
structure Clinician where
  Roles : List String
deriving DecidableEq, Repr

/-- The generated `GetClinicianResponse`: status code and the payload parsed on 200. -/
structure GetClinicianResponse where
  StatusCode : Nat
  JSON200 : Option Clinician
deriving DecidableEq, Repr

/-- The `JSON200` payload of `GetClinicResponse`. -/
structure Clinic where
  Id : String
  Name : String
deriving DecidableEq, Repr

/-- The generated `GetClinicResponse`. -/
structure GetClinicResponse where
  StatusCode : Nat
  JSON200 : Option Clinic
deriving DecidableEq, Repr

/-- The `JSON200` payload of `GetInvitedClinicianResponse`. -/
structure InvitedClinician where
  Email : String
deriving DecidableEq, Repr

/-- The generated `GetInvitedClinicianResponse`. -/
structure GetInvitedClinicianResponse where
  StatusCode : Nat
  Body : String
  JSON200 : Option InvitedClinician
deriving DecidableEq, Repr

/-- A generated response of which only status code and raw body are used
(create clinician, delete invited clinician, associate clinician to user). -/
structure RawResponse where
  StatusCode : Nat
  Body : String
deriving DecidableEq, Repr

/-- The body `clinics.CreateClinicianJSONRequestBody`. -/
structure CreateClinicianBody where
  InviteId : String
  Email : String
  Roles : List String
deriving DecidableEq, Repr

/-! ## Status codes and message constants -/

def StatusOK : Nat := 200
def StatusBadRequest : Nat := 400
def StatusUnauthorized : Nat := 401
def StatusNotFound : Nat := 404
def StatusInternalServerError : Nat := 500

/-- The message constants of the package; their texts are declared outside this
file, so they are kept symbolic. -/
inductive Reason where
  | STATUS_UNAUTHORIZED
  | STATUS_ERR_FINDING_CLINIC
  | STATUS_ERR_FINDING_USR
  | STATUS_ERR_DECODING_CONFIRMATION
  | STATUS_ERR_SAVING_CONFIRMATION
  | statusInviteNotFoundMessage
deriving DecidableEq, Repr

/-- What is handed to `sendModelAsResWithStatus` as the model. -/
inductive Model where
  | statusError (code : Nat) (reason : Reason)
  | error (err : Option GoError)
  | confirmation (c : Confirmation)
  | confirmations (cs : List Confirmation)
deriving DecidableEq, Repr

/-- The notification content map built by `sendClinicianConfirmation`. -/
structure EmailContent where
  ClinicName : String
  CreatorName : String
  Email : String
  WebPath : String
deriving DecidableEq, Repr

/-! ## Effects -/

/-- One observable step of a handler: a call to a collaborator or a write to the
HTTP response. -/
inductive Effect where
  | GetClinician (clinicId userId : String)
  | GetClinic (clinicId : String)
  | CreateClinician (clinicId : String) (body : CreateClinicianBody)
  | GetInvitedClinician (clinicId inviteId : String)
  | DeleteInvitedClinician (clinicId inviteId : String)
  | AssociateClinicianToUser (clinicId inviteId userId : String)
  | findExistingUser (identifier token : String)
  | findExistingConfirmation (filter : Confirmation)
  | FindConfirmations (filter : Confirmation) (status : Status)
  | addOrUpdateConfirmation (c : Confirmation)
  | addProfile (c : Confirmation)
  | createAndSendNotification (c : Confirmation) (content : EmailContent)
  | checkFoundConfirmations (found : List Confirmation) (err : Option GoError)
  | ensureIdSet (userId : String) (invites : List Confirmation)
  | logMetric (name : String)
  | sendError (code : Nat) (reason : Reason) (err : Option GoError)
  | sendModel (model : Model) (code : Nat)
  | setHeader (key value : String)
  | WriteHeader (code : Nat)
  | Write (body : String)
deriving DecidableEq, Repr

/-- A call that creates, deletes or associates an invite at the clinic service. -/
def Effect.isRemoteMutation : Effect → Bool
  | .CreateClinician _ _ => true
  | .DeleteInvitedClinician _ _ => true
  | .AssociateClinicianToUser _ _ _ => true
  | _ => false

/-- Any call to the clinic service. -/
def Effect.isClinicCall : Effect → Bool
  | .GetClinician _ _ => true
  | .GetClinic _ => true
  | .CreateClinician _ _ => true
  | .GetInvitedClinician _ _ => true
  | .DeleteInvitedClinician _ _ => true
  | .AssociateClinicianToUser _ _ _ => true
  | _ => false

/-- A write of a confirmation to the store. -/
def Effect.isStoreWrite : Effect → Bool
  | .addOrUpdateConfirmation _ => true
  | _ => false

/-- A query of the confirmation store. -/
def Effect.isStoreQuery : Effect → Bool
  | .findExistingConfirmation _ => true
  | .FindConfirmations _ _ => true
  | _ => false

/-- A notification handed to the mailer. -/
def Effect.isNotification : Effect → Bool
  | .createAndSendNotification _ _ => true
  | _ => false

/-- The status code an effect writes to the response, if it writes one. -/
def Effect.responseCode : Effect → Option Nat
  | .sendError code _ _ => some code
  | .sendModel _ code => some code
  | .WriteHeader code => some code
  | _ => none

/-- The status codes written to the response, in order. -/
def responseCodes (effects : List Effect) : List Nat :=
  effects.filterMap Effect.responseCode

/-- The check that `res.WriteHeader(code)` of `net/http` makes before it writes
the header: a code outside 100..999 is refused with a panic. -/
def validWriteHeaderCode (code : Nat) : Bool :=
  decide (100 ≤ code) && decide (code ≤ 999)

/-- Whether a status code has already been handed to the response. A later
`res.WriteHeader` is then superfluous and returns before it checks its code. -/
def wroteHeader (effects : List Effect) : Bool :=
  !(responseCodes effects).isEmpty

/-! ## Collaborators -/

/-- The answers of the collaborators of the handlers during one request. A call
of the clinic client answers `.error err` for a transport error (`err != nil`)
and `.ok response` otherwise. The helpers of the package that live outside this
file (`token`, `findExistingUser`, `findExistingConfirmation`,
`addOrUpdateConfirmation`, `addProfile`, `createAndSendNotification`) are taken
as they answer; a call of one is listed as an effect, and what it writes to the
response on its own is not part of the model. -/
structure Env where
  /-- The result of `a.token(res, req)`; `none` is the nil token. -/
  token : Option TokenData
  /-- The value of `a.sl.TokenProvide()`. -/
  TokenProvide : String
  /-- The key `models.NewConfirmation` generates. -/
  freshKey : String
  GetClinicianWithResponse : String → String → Except GoError GetClinicianResponse
  GetClinicWithResponse : String → Except GoError GetClinicResponse
  CreateClinicianWithResponse : String → CreateClinicianBody → Except GoError RawResponse
  GetInvitedClinicianWithResponse : String → String → Except GoError GetInvitedClinicianResponse
  DeleteInvitedClinicianWithResponse : String → String → Except GoError RawResponse
  AssociateClinicianToUserWithResponse : String → String → String → Except GoError RawResponse
  /-- The account for an identifier, nil when none resolves. -/
  findExistingUser : String → String → Option UserData
  /-- The confirmation matching a filter: an error, or the confirmation or nil. -/
  findExistingConfirmation : Confirmation → Except GoError (Option Confirmation)
  /-- The result pair of `a.Store.FindConfirmations`. -/
  FindConfirmations : Confirmation → Status → List Confirmation × Option GoError
  /-- Whether the upsert of the confirmation succeeded. -/
  addOrUpdateConfirmation : Confirmation → Bool
  /-- The confirmation after profile lookup and the error of the lookup. -/
  addProfile : Confirmation → Confirmation × Option GoError
  createAndSendNotification : Confirmation → EmailContent → Bool

/-- The parts of the HTTP request that the handlers read. -/
structure Request where
  /-- The path variables; a missing variable reads as the empty string. -/
  vars : String → String
  /-- The header `TP_SESSION_TOKEN`. -/
  sessionToken : String
  /-- The outcome of decoding the JSON body as a `ClinicianInvite`. -/
  body : Except GoError ClinicianInvite

/-- The result of a helper that returns a value: its effects and the value,
`none` when the helper panicked. -/
structure Ret (α : Type) where
  effects : List Effect
  val : Option α

/-- The result of a handler: its effects, the final contents of the confirmation
object it worked on (if any), and whether it ended in a panic. -/
structure Outcome where
  effects : List Effect
  conf : Option Confirmation
  panicked : Bool
deriving DecidableEq, Repr

/-- The outcome of a handler that had an earlier part `pre` run first. -/
def Outcome.after (pre : List Effect) (o : Outcome) : Outcome :=
  { o with effects := pre ++ o.effects }

/-! ## Helpers of the invitation list -/

/-- Modelled from the spec: `checkFoundConfirmations` is not part of the sources.
A failed store query and a query that matched no confirmation are answered by
the helper itself, as an internal error and as `NotFound`, and nil (`none`) is
returned; otherwise the found confirmations are passed on as the store returned
them. -/
def checkFoundConfirmations (found : List Confirmation) (err : Option GoError) :
    Option (List Confirmation) :=
  match err with
  | some _ => none
  | none => if found.isEmpty then none else some found

/-- Modelled from the spec: `ensureIdSet` is not part of the sources. Each
confirmation has its `Key` echoed into the externally visible id field; the
sequence keeps the order of the store. -/
def ensureIdSet (_userId : String) (invites : List Confirmation) : List Confirmation :=
  invites.map fun confirmation => { confirmation with Id := confirmation.Key }

/-! ## The authorization guard -/

/-- The 401 response of the guards:
`sendModelAsResWithStatus(res, StatusError(401, STATUS_UNAUTHORIZED), 401)`. -/
def unauthorizedResponse : Effect :=
  .sendModel (.statusError StatusUnauthorized .STATUS_UNAUTHORIZED) StatusUnauthorized

/-- The function `assertClinicAdmin`. The value is the returned `error`:
`some none` is a nil error, `some (some e)` an error, `none` a panic. -/
def assertClinicAdmin (env : Env) (clinicId : String) (token : TokenData) :
    Ret (Option GoError) :=
  if !token.IsServer then
    match env.GetClinicianWithResponse clinicId token.UserID with
    | .error err =>
      -- `err != nil`: sendError, `return err`
      ⟨[.GetClinician clinicId token.UserID,
        .sendError StatusInternalServerError .STATUS_ERR_FINDING_USR (some err)],
       some (some err)⟩
    | .ok result =>
      if result.StatusCode == StatusInternalServerError then
        -- `err == nil` and status 500: sendError, `return err`, which is nil here
        ⟨[.GetClinician clinicId token.UserID,
          .sendError StatusInternalServerError .STATUS_ERR_FINDING_USR none],
         some none⟩
      else if result.StatusCode != StatusOK then
        ⟨[.GetClinician clinicId token.UserID, unauthorizedResponse],
         some (some "unexpected status code when fetching clinician")⟩
      else
        match result.JSON200 with
        | none =>
          -- `clinician.Roles` on a nil `JSON200`
          ⟨[.GetClinician clinicId token.UserID], none⟩
        | some clinician =>
          if clinician.Roles.any (fun role => role == "CLINIC_ADMIN") then
            ⟨[.GetClinician clinicId token.UserID], some none⟩
          else
            ⟨[.GetClinician clinicId token.UserID, unauthorizedResponse],
             some (some "the clinician does not have the required permissions")⟩
  else
    ⟨[], some none⟩

/-- The function `assertRecipientAuthorized`; `confirmation` is `none` for a nil
pointer. The value is the returned `error`, as for `assertClinicAdmin`. -/
def assertRecipientAuthorized (env : Env) (req : Request) (token : TokenData)
    (confirmation : Option Confirmation) : Ret (Option GoError) :=
  if token.IsServer then
    ⟨[unauthorizedResponse], some (some "unauthorized")⟩
  else
    match env.findExistingUser token.UserID req.sessionToken, confirmation with
    | none, _ =>
      ⟨[.findExistingUser token.UserID req.sessionToken, unauthorizedResponse],
       some (some "unauthorized")⟩
    | some _, none =>
      ⟨[.findExistingUser token.UserID req.sessionToken, unauthorizedResponse],
       some (some "unauthorized")⟩
    | some invitedUsr, some confirmation =>
      match invitedUsr.Emails with
      | [] =>
        -- `invitedUsr.Emails[0]` on an empty slice
        ⟨[.findExistingUser token.UserID req.sessionToken], none⟩
      | email0 :: _ =>
        if confirmation.Email != email0 then
          ⟨[.findExistingUser token.UserID req.sessionToken, unauthorizedResponse],
           some (some "unauthorized")⟩
        else
          ⟨[.findExistingUser token.UserID req.sessionToken], some none⟩

/-! ## Shared routines -/

/-- The function `sendClinicianConfirmation`. -/
def sendClinicianConfirmation (env : Env) (confirmation : Confirmation) : Outcome :=
  if env.addOrUpdateConfirmation confirmation then
    match env.addProfile confirmation with
    | (withProfile, some _) =>
      ⟨[.addOrUpdateConfirmation confirmation, .logMetric "clinician_invite_created",
        .addProfile confirmation, .sendModel (.confirmation withProfile) StatusOK],
       some withProfile, false⟩
    | (withProfile, none) =>
      let fullName := withProfile.Creator.Profile.FullName
      let webPath := if withProfile.UserId != "" then "login" else "signup"
      let emailContent : EmailContent :=
        { ClinicName := withProfile.Creator.ClinicName, CreatorName := fullName,
          Email := withProfile.Email, WebPath := webPath }
      if env.createAndSendNotification withProfile emailContent then
        ⟨[.addOrUpdateConfirmation confirmation, .logMetric "clinician_invite_created",
          .addProfile confirmation, .createAndSendNotification withProfile emailContent,
          .logMetric "clinician_invite_sent", .sendModel (.confirmation withProfile) StatusOK],
         some withProfile, false⟩
      else
        ⟨[.addOrUpdateConfirmation confirmation, .logMetric "clinician_invite_created",
          .addProfile confirmation, .createAndSendNotification withProfile emailContent,
          .sendModel (.confirmation withProfile) StatusOK],
         some withProfile, false⟩
  else
    ⟨[.addOrUpdateConfirmation confirmation], some confirmation, false⟩

/-- The function `cancelClinicianInviteWithStatus`. -/
def cancelClinicianInviteWithStatus (env : Env) (conf : Confirmation)
    (statusUpdate : Status) : Outcome :=
  match env.DeleteInvitedClinicianWithResponse conf.ClinicId conf.Key with
  | .error err =>
    ⟨[.DeleteInvitedClinician conf.ClinicId conf.Key,
      .sendModel (.error (some err)) StatusInternalServerError], some conf, false⟩
  | .ok response =>
    if response.StatusCode != StatusOK && response.StatusCode != StatusNotFound then
      ⟨[.DeleteInvitedClinician conf.ClinicId conf.Key,
        .sendModel (.error none) StatusInternalServerError], some conf, false⟩
    else
      let updated := conf.UpdateStatus statusUpdate
      if !env.addOrUpdateConfirmation updated then
        ⟨[.DeleteInvitedClinician conf.ClinicId conf.Key, .addOrUpdateConfirmation updated,
          .sendModel (.statusError StatusInternalServerError .STATUS_ERR_SAVING_CONFIRMATION)
            StatusInternalServerError], some updated, false⟩
      else
        -- the body written is the constant `STATUS_OK`, kept by its name
        ⟨[.DeleteInvitedClinician conf.ClinicId conf.Key, .addOrUpdateConfirmation updated,
          .logMetric "dismiss_clinician_invite", .WriteHeader StatusOK, .Write "STATUS_OK"],
         some updated, false⟩

/-- The shared tail of `SendClinicianInvite` and `ResendClinicianInvite`: the
lookup of the invited user sets `UserId` when an account with an id resolves. -/
def setInvitedUser (env : Env) (confirmation : Confirmation) (email : String) : Confirmation :=
  match env.findExistingUser email env.TokenProvide with
  | none => confirmation
  | some invitedUsr =>
    if invitedUsr.UserID != "" then { confirmation with UserId := invitedUsr.UserID }
    else confirmation

/-- The assignments of clinic id and creator snapshot from the fetched clinic. -/
def setClinic (confirmation : Confirmation) (clinic : Clinic) : Confirmation :=
  { confirmation with
    ClinicId := clinic.Id,
    Creator := { confirmation.Creator with ClinicId := clinic.Id, ClinicName := clinic.Name } }

/-! ## The handlers -/

/-- The handler `SendClinicianInvite`. -/
def SendClinicianInvite (env : Env) (req : Request) : Outcome :=
  match env.token with
  | none => ⟨[], none, false⟩
  | some token =>
    let clinicId := req.vars "clinicId"
    let admin := assertClinicAdmin env clinicId token
    match admin.val with
    | none => ⟨admin.effects, none, true⟩
    | some (some _) => ⟨admin.effects, none, false⟩
    | some none =>
      Outcome.after admin.effects <|
      match env.GetClinicWithResponse clinicId with
      | .error err =>
        ⟨[.GetClinic clinicId,
          .sendError StatusInternalServerError .STATUS_ERR_FINDING_CLINIC (some err)],
         none, false⟩
      | .ok clinicResponse =>
        match clinicResponse.JSON200 with
        | none =>
          ⟨[.GetClinic clinicId,
            .sendError StatusInternalServerError .STATUS_ERR_FINDING_CLINIC none],
           none, false⟩
        | some clinic =>
          match req.body with
          | .error _ =>
            ⟨[.GetClinic clinicId,
              .sendModel (.statusError StatusBadRequest .STATUS_ERR_DECODING_CONFIRMATION)
                StatusBadRequest],
             none, false⟩
          | .ok body =>
            let confirmation := NewConfirmation env.freshKey .TypeClinicianInvite
              .TemplateNameClinicianInvite token.UserID
            let confirmation := { confirmation with Email := body.Email }
            let confirmation := setClinic confirmation clinic
            let confirmation := setInvitedUser env confirmation body.Email
            let createBody : CreateClinicianBody :=
              { InviteId := confirmation.Key, Email := body.Email, Roles := body.Roles }
            Outcome.after [.GetClinic clinicId, .findExistingUser body.Email env.TokenProvide,
              .CreateClinician clinicId createBody] <|
            match env.CreateClinicianWithResponse clinicId createBody with
            | .error err =>
              ⟨[.sendError StatusInternalServerError .STATUS_ERR_FINDING_CLINIC (some err)],
               some confirmation, false⟩
            | .ok response =>
              if response.StatusCode != StatusOK then
                if validWriteHeaderCode response.StatusCode || wroteHeader admin.effects then
                  ⟨[.setHeader "content-type" "application/json",
                    .WriteHeader response.StatusCode, .Write response.Body],
                   some confirmation, false⟩
                else
                  -- `res.WriteHeader` refuses the code: nothing is written
                  ⟨[.setHeader "content-type" "application/json"], some confirmation, true⟩
              else
                sendClinicianConfirmation env confirmation

/-- The handler `ResendClinicianInvite`. -/
def ResendClinicianInvite (env : Env) (req : Request) : Outcome :=
  match env.token with
  | none => ⟨[], none, false⟩
  | some token =>
    let clinicId := req.vars "clinicId"
    let inviteId := req.vars "inviteId"
    let admin := assertClinicAdmin env clinicId token
    match admin.val with
    | none => ⟨admin.effects, none, true⟩
    | some (some _) => ⟨admin.effects, none, false⟩
    | some none =>
      Outcome.after admin.effects <|
      match env.GetClinicWithResponse clinicId with
      | .error err =>
        ⟨[.GetClinic clinicId,
          .sendError StatusInternalServerError .STATUS_ERR_FINDING_CLINIC (some err)],
         none, false⟩
      | .ok clinicResponse =>
        match clinicResponse.JSON200 with
        | none =>
          ⟨[.GetClinic clinicId,
            .sendError StatusInternalServerError .STATUS_ERR_FINDING_CLINIC none],
           none, false⟩
        | some clinic =>
          Outcome.after [.GetClinic clinicId, .GetInvitedClinician clinicId inviteId] <|
          match env.GetInvitedClinicianWithResponse clinicId inviteId with
          | .error err =>
            ⟨[.sendError StatusInternalServerError .STATUS_ERR_FINDING_CLINIC (some err)],
             none, false⟩
          | .ok inviteReponse =>
            match inviteReponse.JSON200 with
            | none =>
              if validWriteHeaderCode inviteReponse.StatusCode || wroteHeader admin.effects then
                ⟨[.setHeader "content-type" "application/json",
                  .WriteHeader inviteReponse.StatusCode, .Write inviteReponse.Body],
                 none, false⟩
              else
                -- `res.WriteHeader` refuses the code: nothing is written
                ⟨[.setHeader "content-type" "application/json"], none, true⟩
            | some invited =>
              if inviteReponse.StatusCode != StatusOK then
                if validWriteHeaderCode inviteReponse.StatusCode
                    || wroteHeader admin.effects then
                  ⟨[.setHeader "content-type" "application/json",
                    .WriteHeader inviteReponse.StatusCode, .Write inviteReponse.Body],
                   none, false⟩
                else
                  -- `res.WriteHeader` refuses the code: nothing is written
                  ⟨[.setHeader "content-type" "application/json"], none, true⟩
              else
                let filter : Confirmation :=
                  { Confirmation.zero with
                    Key := inviteId, Type' := .TypeClinicianInvite, Status := .StatusPending }
                Outcome.after [.findExistingConfirmation filter] <|
                match env.findExistingConfirmation filter with
                | .error err =>
                  ⟨[.sendModel (.error (some err)) StatusInternalServerError], none, false⟩
                | .ok none =>
                  -- `if confirmation == nil { confirmation, _ := models.NewConfirmation(...);
                  -- confirmation.Key = inviteId }`: the `:=` declares a new variable that
                  -- lives in the block only. The outer `confirmation` is still nil at
                  -- `confirmation.Email = ...`, a nil dereference.
                  ⟨[], none, true⟩
                | .ok (some confirmation) =>
                  let confirmation := { confirmation with Email := invited.Email }
                  let confirmation := setClinic confirmation clinic
                  let confirmation := setInvitedUser env confirmation confirmation.Email
                  Outcome.after [.findExistingUser invited.Email env.TokenProvide] <|
                  sendClinicianConfirmation env confirmation

/-- The handler `GetClinicianInvitations`. -/
def GetClinicianInvitations (env : Env) (req : Request) : Outcome :=
  match env.token with
  | none => ⟨[], none, false⟩
  | some token =>
    let userId := req.vars "userId"
    Outcome.after [.findExistingUser userId req.sessionToken] <|
    match env.findExistingUser userId req.sessionToken with
    | none => ⟨[unauthorizedResponse], none, false⟩
    | some invitedUsr =>
      if userId != token.UserID then
        ⟨[unauthorizedResponse], none, false⟩
      else
        match invitedUsr.Emails with
        | [] =>
          -- `invitedUsr.Emails[0]` on an empty slice
          ⟨[], none, true⟩
        | email0 :: _ =>
          let filter : Confirmation :=
            { Confirmation.zero with Email := email0, Type' := .TypeClinicianInvite }
          let found := env.FindConfirmations filter .StatusPending
          Outcome.after [.FindConfirmations filter .StatusPending,
            .checkFoundConfirmations found.1 found.2] <|
          match checkFoundConfirmations found.1 found.2 with
          | none => ⟨[], none, false⟩
          | some invites =>
            ⟨[.ensureIdSet userId invites, .logMetric "get_clinician_invitations",
              .sendModel (.confirmations (ensureIdSet userId invites)) StatusOK],
             none, false⟩

/-- The handler `AcceptClinicianInvite`. -/
def AcceptClinicianInvite (env : Env) (req : Request) : Outcome :=
  match env.token with
  | none => ⟨[], none, false⟩
  | some token =>
    let userId := req.vars "userId"
    let inviteId := req.vars "inviteId"
    let accept : Confirmation :=
      { Confirmation.zero with
        Key := inviteId, UserId := userId, Type' := .TypeClinicianInvite,
        Status := .StatusPending }
    Outcome.after [.findExistingConfirmation accept] <|
    match env.findExistingConfirmation accept with
    | .error err => ⟨[.sendModel (.error (some err)) StatusInternalServerError], none, false⟩
    | .ok conf =>
      let auth := assertRecipientAuthorized env req token conf
      match auth.val with
      | none => ⟨auth.effects, conf, true⟩
      | some (some _) => ⟨auth.effects, conf, false⟩
      | some none =>
        Outcome.after auth.effects <|
        match conf with
        | none =>
          -- `conf.ClinicId` on a nil confirmation
          ⟨[], none, true⟩
        | some conf =>
          Outcome.after [.AssociateClinicianToUser conf.ClinicId inviteId token.UserID] <|
          match env.AssociateClinicianToUserWithResponse conf.ClinicId inviteId token.UserID with
          | .error err =>
            ⟨[.sendModel (.error (some err)) StatusInternalServerError], some conf, false⟩
          | .ok response =>
            if response.StatusCode != StatusOK then
              ⟨[.sendModel (.error none) StatusInternalServerError], some conf, false⟩
            else
              let updated := conf.UpdateStatus .StatusCompleted
              if !env.addOrUpdateConfirmation updated then
                ⟨[.addOrUpdateConfirmation updated,
                  .sendModel
                    (.statusError StatusInternalServerError .STATUS_ERR_SAVING_CONFIRMATION)
                    StatusInternalServerError],
                 some updated, false⟩
              else
                ⟨[.addOrUpdateConfirmation updated, .logMetric "accept_clinician_invite",
                  .WriteHeader StatusOK, .Write response.Body],
                 some updated, false⟩

/-- The handler `DismissClinicianInvite`. -/
def DismissClinicianInvite (env : Env) (req : Request) : Outcome :=
  match env.token with
  | none => ⟨[], none, false⟩
  | some token =>
    let userId := req.vars "userId"
    let inviteId := req.vars "inviteId"
    let filter : Confirmation :=
      { Confirmation.zero with
        Key := inviteId, UserId := userId, Type' := .TypeClinicianInvite,
        Status := .StatusPending }
    Outcome.after [.findExistingConfirmation filter] <|
    match env.findExistingConfirmation filter with
    | .error err => ⟨[.sendModel (.error (some err)) StatusInternalServerError], none, false⟩
    | .ok conf =>
      let auth := assertRecipientAuthorized env req token conf
      match auth.val with
      | none => ⟨auth.effects, conf, true⟩
      | some (some _) => ⟨auth.effects, conf, false⟩
      | some none =>
        Outcome.after auth.effects <|
        match conf with
        | none =>
          -- `conf.ClinicId` on a nil confirmation
          ⟨[], none, true⟩
        | some conf => cancelClinicianInviteWithStatus env conf .StatusDeclined

/-- The handler `CancelClinicianInvite`. -/
def CancelClinicianInvite (env : Env) (req : Request) : Outcome :=
  match env.token with
  | none => ⟨[], none, false⟩
  | some token =>
    let clinicId := req.vars "clinicId"
    let inviteId := req.vars "inviteId"
    let admin := assertClinicAdmin env clinicId token
    match admin.val with
    | none => ⟨admin.effects, none, true⟩
    | some (some _) => ⟨admin.effects, none, false⟩
    | some none =>
      let filter : Confirmation :=
        { Confirmation.zero with
          Key := inviteId, ClinicId := clinicId, Type' := .TypeClinicianInvite,
          Status := .StatusPending }
      Outcome.after (admin.effects ++ [.findExistingConfirmation filter]) <|
      match env.findExistingConfirmation filter with
      | .error err => ⟨[.sendModel (.error (some err)) StatusInternalServerError], none, false⟩
      | .ok none =>
        ⟨[.sendModel (.statusError StatusNotFound .statusInviteNotFoundMessage) StatusNotFound],
         none, false⟩
      | .ok (some conf) => cancelClinicianInviteWithStatus env conf .StatusCanceled

/-! ## Example environments

Concrete collaborators and requests at which the properties below are
instantiated. -/

/-- A pending clinician invite `inv-1` of clinic `c1` for `a@x.com`. -/
def examplePending : Confirmation :=
  { Confirmation.zero with
    Key := "inv-1", Type' := .TypeClinicianInvite, Status := .StatusPending,
    Email := "a@x.com", UserId := "u1", ClinicId := "c1" }

/-- A second pending clinician invite for `a@x.com`, `inv-2` of clinic `c2`. -/
def exampleSecond : Confirmation :=
  { Confirmation.zero with
    Key := "inv-2", Type' := .TypeClinicianInvite, Status := .StatusPending,
    Email := "a@x.com", UserId := "u1", ClinicId := "c2" }

/-- A request of user `u1` for clinic `c1` and invite `inv-1`, with an invite
body for `new@clinic.org`. -/
def exampleReq : Request :=
  { vars := fun v =>
      if v == "clinicId" then "c1" else if v == "inviteId" then "inv-1"
      else if v == "userId" then "u1" else "",
    sessionToken := "session",
    body := .ok { Email := "new@clinic.org", Roles := ["CLINIC_STAFF"] } }

/-- The caller `u1` is a clinic admin of every clinic, owns the account with
email `a@x.com`, every remote call answers 200, the remote invite is for
`a@x.com`, and the store holds no confirmation. -/
def exampleEnv : Env :=
  { token := some { UserID := "u1", IsServer := false },
    TokenProvide := "server-token",
    freshKey := "key-1",
    GetClinicianWithResponse := fun _ _ =>
      .ok { StatusCode := 200, JSON200 := some { Roles := ["CLINIC_ADMIN"] } },
    GetClinicWithResponse := fun clinicId =>
      .ok { StatusCode := 200, JSON200 := some { Id := clinicId, Name := "Clinic" } },
    CreateClinicianWithResponse := fun _ _ => .ok { StatusCode := 200, Body := "created" },
    GetInvitedClinicianWithResponse := fun _ _ =>
      .ok { StatusCode := 200, Body := "invite", JSON200 := some { Email := "a@x.com" } },
    DeleteInvitedClinicianWithResponse := fun _ _ => .ok { StatusCode := 200, Body := "" },
    AssociateClinicianToUserWithResponse := fun _ _ _ =>
      .ok { StatusCode := 200, Body := "associated" },
    findExistingUser := fun _ _ => some { UserID := "u1", Emails := ["a@x.com"] },
    findExistingConfirmation := fun _ => .ok none,
    FindConfirmations := fun _ _ => ([], none),
    addOrUpdateConfirmation := fun _ => true,
    addProfile := fun c => (c, none),
    createAndSendNotification := fun _ _ => true }

/-- As `exampleEnv`, with the pending invite `examplePending` in the store; a
query for several confirmations answers `inv-2` before `inv-1`. -/
def pendingEnv : Env :=
  { exampleEnv with
    findExistingConfirmation := fun _ => .ok (some examplePending),
    FindConfirmations := fun _ _ => ([exampleSecond, examplePending], none) }

/-- As `exampleEnv`, but the caller is clinic staff without the admin role. -/
def staffEnv : Env :=
  { exampleEnv with
    GetClinicianWithResponse := fun _ _ =>
      .ok { StatusCode := 200, JSON200 := some { Roles := ["CLINIC_STAFF"] } } }

/-- As `pendingEnv`, but the clinician lookup answers 500 without a transport
error. -/
def lookup500Env : Env :=
  { pendingEnv with
    GetClinicianWithResponse := fun _ _ => .ok { StatusCode := 500, JSON200 := none } }

/-- As `pendingEnv`, but the account of the caller has no email. -/
def noEmailEnv : Env :=
  { pendingEnv with
    findExistingUser := fun _ _ => some { UserID := "u1", Emails := [] } }

/-- As `exampleEnv`, but the remote create answers 409. -/
def conflictEnv : Env :=
  { exampleEnv with
    CreateClinicianWithResponse := fun _ _ => .ok { StatusCode := 409, Body := "duplicate" } }

/-- As `exampleEnv`, but the remote create answers with the status code 99. -/
def oddStatusEnv : Env :=
  { exampleEnv with
    CreateClinicianWithResponse := fun _ _ => .ok { StatusCode := 99, Body := "odd" } }

/-- As `pendingEnv`, but the remote invite is already gone: delete answers 404. -/
def goneEnv : Env :=
  { pendingEnv with
    DeleteInvitedClinicianWithResponse := fun _ _ => .ok { StatusCode := 404, Body := "" } }

/-! ## Properties of the authorization guard -/

/-- The effects of `assertClinicAdmin` are the clinician lookup and writes to the
response only. -/
theorem assertClinicAdmin_effects (env : Env) (clinicId : String) (token : TokenData) :
    ∀ e ∈ (assertClinicAdmin env clinicId token).effects,
      e = .GetClinician clinicId token.UserID ∨ e.responseCode.isSome = true := by
  intro e he
  unfold assertClinicAdmin at he
  split at he
  · split at he
    · simp at he; rcases he with rfl | rfl <;> simp [Effect.responseCode]
    · split at he
      · simp at he; rcases he with rfl | rfl <;> simp [Effect.responseCode]
      · split at he
        · simp at he
          rcases he with rfl | rfl <;> simp [Effect.responseCode, unauthorizedResponse]
        · split at he
          · simp at he; simp [he]
          · split at he
            · simp at he; simp [he]
            · simp at he
              rcases he with rfl | rfl <;> simp [Effect.responseCode, unauthorizedResponse]
  · simp at he

/-- The effects of `assertRecipientAuthorized` are the identity lookup and writes
to the response only. -/
theorem assertRecipientAuthorized_effects (env : Env) (req : Request) (token : TokenData)
    (confirmation : Option Confirmation) :
    ∀ e ∈ (assertRecipientAuthorized env req token confirmation).effects,
      e = .findExistingUser token.UserID req.sessionToken ∨ e.responseCode.isSome = true := by
  intro e he
  unfold assertRecipientAuthorized at he
  split at he
  · simp at he; simp [he, Effect.responseCode, unauthorizedResponse]
  · split at he
    · simp at he
      rcases he with rfl | rfl <;> simp [Effect.responseCode, unauthorizedResponse]
    · simp at he
      rcases he with rfl | rfl <;> simp [Effect.responseCode, unauthorizedResponse]
    · split at he
      · simp at he; simp [he]
      · split at he
        · simp at he
          rcases he with rfl | rfl <;> simp [Effect.responseCode, unauthorizedResponse]
        · simp at he; simp [he]

/-- A server token passes `assertClinicAdmin` without any call or response. -/
theorem assertClinicAdmin_server (env : Env) (clinicId : String) (token : TokenData)
    (hserver : token.IsServer = true) :
    assertClinicAdmin env clinicId token = ⟨[], some none⟩ := by
  simp [assertClinicAdmin, hserver]

/-- A transport error of the clinician lookup makes `assertClinicAdmin` write a
500 error and return that error. -/
theorem assertClinicAdmin_transport_error (env : Env) (clinicId : String) (token : TokenData)
    (err : GoError) (hnonserver : token.IsServer = false)
    (hlookup : env.GetClinicianWithResponse clinicId token.UserID = .error err) :
    assertClinicAdmin env clinicId token
      = ⟨[.GetClinician clinicId token.UserID,
          .sendError StatusInternalServerError .STATUS_ERR_FINDING_USR (some err)],
         some (some err)⟩ := by
  simp [assertClinicAdmin, hnonserver, hlookup]

/-- The claim C1: a non-server caller whose clinician lookup answers 200 with a
role list without `CLINIC_ADMIN`, or a status that is neither 200 nor 500, is
refused by `assertClinicAdmin` with a 401 response and a non-nil error, and
`SendClinicianInvite`, `ResendClinicianInvite` and `CancelClinicianInvite` stop
there: their only effects are the clinician lookup and the 401 response, so no
remote invite is created or deleted, nothing is written to the store and no
notification is sent. -/
theorem non_admin_is_unauthorized (env : Env) (req : Request) (token : TokenData)
    (clinicId : String) (r : GetClinicianResponse)
    (hvar : req.vars "clinicId" = clinicId)
    (htoken : env.token = some token)
    (hnonserver : token.IsServer = false)
    (hlookup : env.GetClinicianWithResponse clinicId token.UserID = .ok r)
    (hnonadmin : (r.StatusCode = 200 ∧ ∃ clinician, r.JSON200 = some clinician ∧
        "CLINIC_ADMIN" ∉ clinician.Roles) ∨ (r.StatusCode ≠ 200 ∧ r.StatusCode ≠ 500)) :
    (assertClinicAdmin env clinicId token).effects
        = [.GetClinician clinicId token.UserID, unauthorizedResponse]
    ∧ (∃ err, (assertClinicAdmin env clinicId token).val = some (some err))
    ∧ responseCodes (assertClinicAdmin env clinicId token).effects = [401]
    ∧ SendClinicianInvite env req
        = ⟨[.GetClinician clinicId token.UserID, unauthorizedResponse], none, false⟩
    ∧ ResendClinicianInvite env req
        = ⟨[.GetClinician clinicId token.UserID, unauthorizedResponse], none, false⟩
    ∧ CancelClinicianInvite env req
        = ⟨[.GetClinician clinicId token.UserID, unauthorizedResponse], none, false⟩
    ∧ (∀ out ∈ [SendClinicianInvite env req, ResendClinicianInvite env req,
          CancelClinicianInvite env req],
        ∀ e ∈ out.effects,
          e.isRemoteMutation = false ∧ e.isStoreWrite = false ∧ e.isNotification = false) := by
  subst hvar
  have hadmin : ∃ err, assertClinicAdmin env (req.vars "clinicId") token
      = ⟨[.GetClinician (req.vars "clinicId") token.UserID, unauthorizedResponse],
         some (some err)⟩ := by
    unfold assertClinicAdmin
    rcases hnonadmin with ⟨h200, clinician, hjson, hrole⟩ | ⟨hne200, hne500⟩
    · refine ⟨"the clinician does not have the required permissions", ?_⟩
      have hany : (clinician.Roles.any fun role => role == "CLINIC_ADMIN") = false := by
        rw [List.any_eq_false]
        intro x hx hxe
        have hx' : x = "CLINIC_ADMIN" := by simpa using hxe
        exact hrole (hx' ▸ hx)
      simp [hnonserver, hlookup, h200, hjson, hany, StatusInternalServerError, StatusOK]
    · refine ⟨"unexpected status code when fetching clinician", ?_⟩
      simp [hnonserver, hlookup, hne200, hne500, StatusInternalServerError, StatusOK]
  obtain ⟨err, hadmin⟩ := hadmin
  have hsend : SendClinicianInvite env req
      = ⟨[.GetClinician (req.vars "clinicId") token.UserID, unauthorizedResponse],
         none, false⟩ := by
    simp [SendClinicianInvite, htoken, hadmin]
  have hresend : ResendClinicianInvite env req
      = ⟨[.GetClinician (req.vars "clinicId") token.UserID, unauthorizedResponse],
         none, false⟩ := by
    simp [ResendClinicianInvite, htoken, hadmin]
  have hcancel : CancelClinicianInvite env req
      = ⟨[.GetClinician (req.vars "clinicId") token.UserID, unauthorizedResponse],
         none, false⟩ := by
    simp [CancelClinicianInvite, htoken, hadmin]
  refine ⟨by rw [hadmin], ⟨err, by rw [hadmin]⟩, ?_, hsend, hresend, hcancel, ?_⟩
  · rw [hadmin]; rfl
  · intro out hout e he
    simp only [hsend, hresend, hcancel, List.mem_cons, List.mem_singleton, List.not_mem_nil,
      or_false, or_self] at hout
    subst hout
    simp at he
    rcases he with rfl | rfl <;>
      simp [Effect.isRemoteMutation, Effect.isStoreWrite, Effect.isNotification,
        unauthorizedResponse]

/-- The claim C1 at a caller with the role `CLINIC_STAFF` only: the three
handlers answer 401 after the clinician lookup and do nothing else. -/
theorem non_admin_is_unauthorized_witness :
    staffEnv.token = some { UserID := "u1", IsServer := false }
    ∧ staffEnv.GetClinicianWithResponse "c1" "u1"
        = .ok { StatusCode := 200, JSON200 := some { Roles := ["CLINIC_STAFF"] } }
    ∧ "CLINIC_ADMIN" ∉ ["CLINIC_STAFF"]
    ∧ SendClinicianInvite staffEnv exampleReq
        = ⟨[.GetClinician "c1" "u1", unauthorizedResponse], none, false⟩
    ∧ ResendClinicianInvite staffEnv exampleReq
        = ⟨[.GetClinician "c1" "u1", unauthorizedResponse], none, false⟩
    ∧ CancelClinicianInvite staffEnv exampleReq
        = ⟨[.GetClinician "c1" "u1", unauthorizedResponse], none, false⟩ :=
  have h := non_admin_is_unauthorized staffEnv exampleReq { UserID := "u1", IsServer := false }
    "c1" { StatusCode := 200, JSON200 := some { Roles := ["CLINIC_STAFF"] } } rfl rfl rfl rfl
    (Or.inl ⟨rfl, { Roles := ["CLINIC_STAFF"] }, rfl, by decide⟩)
  ⟨rfl, rfl, by decide, h.2.2.2.1, h.2.2.2.2.1, h.2.2.2.2.2.1⟩

/-- The claim C2 at its failing input, a clinician lookup that answers 500
without a transport error: `assertClinicAdmin` writes the 500 error but returns
a nil error (`return err` with `err == nil`), and `CancelClinicianInvite` goes
on to query the store, delete the remote invite and write the confirmation. -/
theorem assertClinicAdmin_status_500_returns_nil :
    lookup500Env.GetClinicianWithResponse "c1" "u1" = .ok { StatusCode := 500, JSON200 := none }
    ∧ assertClinicAdmin lookup500Env "c1" { UserID := "u1", IsServer := false }
        = ⟨[.GetClinician "c1" "u1",
            .sendError StatusInternalServerError .STATUS_ERR_FINDING_USR none], some none⟩
    ∧ (CancelClinicianInvite lookup500Env exampleReq).effects
        = [.GetClinician "c1" "u1",
           .sendError StatusInternalServerError .STATUS_ERR_FINDING_USR none,
           .findExistingConfirmation
             { Confirmation.zero with
               Key := "inv-1", ClinicId := "c1", Type' := .TypeClinicianInvite,
               Status := .StatusPending },
           .DeleteInvitedClinician "c1" "inv-1",
           .addOrUpdateConfirmation { examplePending with Status := .StatusCanceled },
           .logMetric "dismiss_clinician_invite", .WriteHeader StatusOK, .Write "STATUS_OK"]
    ∧ (SendClinicianInvite lookup500Env exampleReq).effects.any Effect.isRemoteMutation = true
    ∧ (SendClinicianInvite lookup500Env exampleReq).effects.any Effect.isStoreWrite = true
    ∧ (ResendClinicianInvite lookup500Env exampleReq).effects.any Effect.isStoreWrite = true := by
  refine ⟨rfl, rfl, rfl, ?_, ?_, ?_⟩ <;> decide

/-- The claim C3 fails as stated: for a non-server caller whose account resolves
with an empty email list and an existing confirmation, the conditions of success
do not hold, yet `assertRecipientAuthorized` neither writes a 401 response nor
returns an error: it fails at `invitedUsr.Emails[0]` and writes nothing. -/
theorem assertRecipientAuthorized_no_email_counterexample :
    noEmailEnv.findExistingUser "u1" "session" = some { UserID := "u1", Emails := [] }
    ∧ (assertRecipientAuthorized noEmailEnv exampleReq { UserID := "u1", IsServer := false }
        (some examplePending)).val = none
    ∧ responseCodes (assertRecipientAuthorized noEmailEnv exampleReq
        { UserID := "u1", IsServer := false } (some examplePending)).effects = []
    ∧ ¬ ∃ err, (assertRecipientAuthorized noEmailEnv exampleReq
        { UserID := "u1", IsServer := false } (some examplePending)).val = some (some err) := by
  refine ⟨rfl, rfl, rfl, ?_⟩
  rintro ⟨err, h⟩
  have hval : (assertRecipientAuthorized noEmailEnv exampleReq
      { UserID := "u1", IsServer := false } (some examplePending)).val = none := rfl
  rw [hval] at h
  cases h

/-- The claim C3 as amended: `assertRecipientAuthorized` returns nil without
writing a response exactly when the token is not a server token, the identity
lookup of the token's user id resolves an account, the confirmation exists and
the first email of the account equals `confirmation.Email`. In every other case,
except that of an account without any email next to an existing confirmation, it
writes a 401 response and returns an error. A server token is never authorized. -/
theorem assertRecipientAuthorized_amended (env : Env) (req : Request) (token : TokenData)
    (confirmation : Option Confirmation) :
    (((assertRecipientAuthorized env req token confirmation).val = some none
        ∧ responseCodes (assertRecipientAuthorized env req token confirmation).effects = [])
      ↔ (token.IsServer = false ∧ ∃ usr c,
          env.findExistingUser token.UserID req.sessionToken = some usr
          ∧ confirmation = some c ∧ usr.Emails.head? = some c.Email))
    ∧ (¬ (token.IsServer = false ∧ ∃ usr c,
          env.findExistingUser token.UserID req.sessionToken = some usr
          ∧ confirmation = some c ∧ usr.Emails.head? = some c.Email)
        → ¬ (token.IsServer = false ∧ confirmation ≠ none ∧ ∃ usr,
          env.findExistingUser token.UserID req.sessionToken = some usr ∧ usr.Emails = [])
        → responseCodes (assertRecipientAuthorized env req token confirmation).effects = [401]
          ∧ unauthorizedResponse ∈ (assertRecipientAuthorized env req token confirmation).effects
          ∧ ∃ err, (assertRecipientAuthorized env req token confirmation).val = some (some err))
    ∧ (token.IsServer = true
        → assertRecipientAuthorized env req token confirmation
            = ⟨[unauthorizedResponse], some (some "unauthorized")⟩) := by
  unfold assertRecipientAuthorized
  cases hserver : token.IsServer
  · cases huser : env.findExistingUser token.UserID req.sessionToken with
    | none =>
      simp [responseCodes, Effect.responseCode, unauthorizedResponse, StatusUnauthorized]
    | some usr =>
      obtain ⟨uid, emails⟩ := usr
      cases confirmation with
      | none =>
        simp [responseCodes, Effect.responseCode, unauthorizedResponse, StatusUnauthorized]
      | some c =>
        cases emails with
        | nil => simp [responseCodes, Effect.responseCode]
        | cons email0 rest =>
          by_cases heq : c.Email = email0
          · simp [heq, responseCodes, Effect.responseCode]
          · have heq' : ¬ email0 = c.Email := fun h => heq h.symm
            simp [heq, heq', responseCodes, Effect.responseCode, unauthorizedResponse,
              StatusUnauthorized]
  · simp [responseCodes, Effect.responseCode, unauthorizedResponse, StatusUnauthorized]

/-- The claim C3 as amended, at three callers: the owner of `a@x.com` is
authorized for the invite to `a@x.com`; the same caller is refused with 401 when
no confirmation exists; a server token is refused with 401. -/
theorem assertRecipientAuthorized_amended_witness :
    ((assertRecipientAuthorized pendingEnv exampleReq { UserID := "u1", IsServer := false }
        (some examplePending)).val = some none
      ∧ responseCodes (assertRecipientAuthorized pendingEnv exampleReq
        { UserID := "u1", IsServer := false } (some examplePending)).effects = [])
    ∧ responseCodes (assertRecipientAuthorized pendingEnv exampleReq
        { UserID := "u1", IsServer := false } none).effects = [401]
    ∧ assertRecipientAuthorized pendingEnv exampleReq { UserID := "srv", IsServer := true }
        (some examplePending) = ⟨[unauthorizedResponse], some (some "unauthorized")⟩ :=
  ⟨(assertRecipientAuthorized_amended pendingEnv exampleReq { UserID := "u1", IsServer := false }
      (some examplePending)).1.mpr
      ⟨rfl, { UserID := "u1", Emails := ["a@x.com"] }, examplePending, rfl, rfl, rfl⟩,
   ((assertRecipientAuthorized_amended pendingEnv exampleReq { UserID := "u1", IsServer := false }
      none).2.1 (by simp) (by simp)).1,
   (assertRecipientAuthorized_amended pendingEnv exampleReq { UserID := "srv", IsServer := true }
      (some examplePending)).2.2 rfl⟩

/-! ## Properties of the shared routines -/

/-- The assignment of the clinic keeps the key. -/
@[simp] theorem setClinic_Key (confirmation : Confirmation) (clinic : Clinic) :
    (setClinic confirmation clinic).Key = confirmation.Key := rfl

/-- The lookup of the invited user keeps the key. -/
@[simp] theorem setInvitedUser_Key (env : Env) (confirmation : Confirmation) (email : String) :
    (setInvitedUser env confirmation email).Key = confirmation.Key := by
  unfold setInvitedUser
  split
  · rfl
  · split <;> rfl

/-- The lookup of the invited user keeps the email. -/
@[simp] theorem setInvitedUser_Email (env : Env) (confirmation : Confirmation) (email : String) :
    (setInvitedUser env confirmation email).Email = confirmation.Email := by
  unfold setInvitedUser
  split
  · rfl
  · split <;> rfl

/-- The lookup of the invited user keeps the status. -/
@[simp] theorem setInvitedUser_Status (env : Env) (confirmation : Confirmation) (email : String) :
    (setInvitedUser env confirmation email).Status = confirmation.Status := by
  unfold setInvitedUser
  split
  · rfl
  · split <;> rfl

/-- The lookup of the invited user keeps the clinic id. -/
@[simp] theorem setInvitedUser_ClinicId (env : Env) (confirmation : Confirmation)
    (email : String) :
    (setInvitedUser env confirmation email).ClinicId = confirmation.ClinicId := by
  unfold setInvitedUser
  split
  · rfl
  · split <;> rfl

/-- The lookup of the invited user keeps the creator snapshot. -/
@[simp] theorem setInvitedUser_Creator (env : Env) (confirmation : Confirmation)
    (email : String) :
    (setInvitedUser env confirmation email).Creator = confirmation.Creator := by
  unfold setInvitedUser
  split
  · rfl
  · split <;> rfl

/-- The guard `assertClinicAdmin` writes nothing to the store. -/
theorem assertClinicAdmin_no_store_write (env : Env) (clinicId : String) (token : TokenData)
    (c : Confirmation) :
    Effect.addOrUpdateConfirmation c ∉ (assertClinicAdmin env clinicId token).effects := by
  intro h
  rcases assertClinicAdmin_effects env clinicId token _ h with h' | h'
  · cases h'
  · simp [Effect.responseCode] at h'

/-- The only confirmation `sendClinicianConfirmation` hands to the store is the
one it was given. -/
theorem sendClinicianConfirmation_store_write (env : Env) (confirmation c : Confirmation)
    (h : Effect.addOrUpdateConfirmation c ∈ (sendClinicianConfirmation env confirmation).effects) :
    c = confirmation := by
  unfold sendClinicianConfirmation at h
  split at h
  · split at h
    · simpa using h
    · split at h <;> (dsimp only at h; split at h <;> simpa using h)
  · simpa using h

/-! ## Properties of the handlers -/

/-- The claim C4 fails as stated: for an authorized request whose remote create
answers, without transport error, the status code 99, the handler does not relay
status and body. `res.WriteHeader(99)` panics, so no status code and no body are
written. -/
theorem SendClinicianInvite_invalid_status_counterexample :
    (assertClinicAdmin oddStatusEnv "c1" { UserID := "u1", IsServer := false }).val = some none
    ∧ responseCodes
        (assertClinicAdmin oddStatusEnv "c1" { UserID := "u1", IsServer := false }).effects = []
    ∧ oddStatusEnv.CreateClinicianWithResponse "c1"
        { InviteId := "key-1", Email := "new@clinic.org", Roles := ["CLINIC_STAFF"] }
      = .ok { StatusCode := 99, Body := "odd" }
    ∧ (SendClinicianInvite oddStatusEnv exampleReq).effects
      = [.GetClinician "c1" "u1", .GetClinic "c1",
         .findExistingUser "new@clinic.org" "server-token",
         .CreateClinician "c1"
           { InviteId := "key-1", Email := "new@clinic.org", Roles := ["CLINIC_STAFF"] },
         .setHeader "content-type" "application/json"]
    ∧ (SendClinicianInvite oddStatusEnv exampleReq).panicked = true
    ∧ responseCodes (SendClinicianInvite oddStatusEnv exampleReq).effects = []
    ∧ Effect.Write "odd" ∉ (SendClinicianInvite oddStatusEnv exampleReq).effects := by
  refine ⟨rfl, rfl, rfl, rfl, rfl, rfl, ?_⟩
  decide

/-- The claim C4 as amended: when an authorized `SendClinicianInvite` reaches the
remote create and the create answers, without transport error, a status other
than 200, no confirmation is written to the store and no notification is sent;
when that status is one that `res.WriteHeader` accepts (100 to 999), the handler
relays exactly that status code and the remote body and does nothing else. For
every request, a confirmation is written to the store only if the remote create
answered 200, and the invite id sent to the remote create is the `Key` of the
confirmation written. -/
theorem SendClinicianInvite_relays_remote_failure (env : Env) (req : Request) :
    (∀ token clinicResponse clinic body response,
        env.token = some token →
        (assertClinicAdmin env (req.vars "clinicId") token).val = some none →
        responseCodes (assertClinicAdmin env (req.vars "clinicId") token).effects = [] →
        env.GetClinicWithResponse (req.vars "clinicId") = .ok clinicResponse →
        clinicResponse.JSON200 = some clinic →
        req.body = .ok body →
        env.CreateClinicianWithResponse (req.vars "clinicId")
          { InviteId := env.freshKey, Email := body.Email, Roles := body.Roles } = .ok response →
        response.StatusCode ≠ 200 →
        (∀ e ∈ (SendClinicianInvite env req).effects,
            e.isStoreWrite = false ∧ e.isNotification = false)
        ∧ (100 ≤ response.StatusCode → response.StatusCode ≤ 999 →
            (SendClinicianInvite env req).effects
              = (assertClinicAdmin env (req.vars "clinicId") token).effects ++
                [.GetClinic (req.vars "clinicId"),
                 .findExistingUser body.Email env.TokenProvide,
                 .CreateClinician (req.vars "clinicId")
                   { InviteId := env.freshKey, Email := body.Email, Roles := body.Roles },
                 .setHeader "content-type" "application/json",
                 .WriteHeader response.StatusCode,
                 .Write response.Body]
            ∧ responseCodes (SendClinicianInvite env req).effects = [response.StatusCode]
            ∧ (SendClinicianInvite env req).panicked = false))
    ∧ (∀ c, Effect.addOrUpdateConfirmation c ∈ (SendClinicianInvite env req).effects →
        ∃ body response,
          req.body = .ok body
          ∧ env.CreateClinicianWithResponse (req.vars "clinicId")
              { InviteId := c.Key, Email := body.Email, Roles := body.Roles } = .ok response
          ∧ response.StatusCode = 200
          ∧ Effect.CreateClinician (req.vars "clinicId")
              { InviteId := c.Key, Email := body.Email, Roles := body.Roles }
            ∈ (SendClinicianInvite env req).effects) := by
  constructor
  · intro token clinicResponse clinic body response htoken hval hcodes hclinic hjson hbody
      hcreate hstatus
    have hwrote : wroteHeader (assertClinicAdmin env (req.vars "clinicId") token).effects
        = false := by
      simp [wroteHeader, hcodes]
    have hadminclean : ∀ e ∈ (assertClinicAdmin env (req.vars "clinicId") token).effects,
        e.isStoreWrite = false ∧ e.isNotification = false := by
      intro e he
      rcases assertClinicAdmin_effects env _ token e he with rfl | hresp
      · simp [Effect.isStoreWrite, Effect.isNotification]
      · cases e <;> simp [Effect.responseCode] at hresp <;>
          simp [Effect.isStoreWrite, Effect.isNotification]
    constructor
    · intro e he
      by_cases hvalid : validWriteHeaderCode response.StatusCode = true
      · have heff : (SendClinicianInvite env req).effects
            = (assertClinicAdmin env (req.vars "clinicId") token).effects ++
              [.GetClinic (req.vars "clinicId"),
               .findExistingUser body.Email env.TokenProvide,
               .CreateClinician (req.vars "clinicId")
                 { InviteId := env.freshKey, Email := body.Email, Roles := body.Roles },
               .setHeader "content-type" "application/json",
               .WriteHeader response.StatusCode,
               .Write response.Body] := by
          simp [SendClinicianInvite, htoken, hval, hclinic, hjson, hbody, Outcome.after,
            NewConfirmation, hcreate, hstatus, StatusOK, hvalid]
        rw [heff, List.mem_append] at he
        rcases he with he | he
        · exact hadminclean e he
        · simp at he
          rcases he with rfl | rfl | rfl | rfl | rfl | rfl <;>
            simp [Effect.isStoreWrite, Effect.isNotification]
      · have heff : (SendClinicianInvite env req).effects
            = (assertClinicAdmin env (req.vars "clinicId") token).effects ++
              [.GetClinic (req.vars "clinicId"),
               .findExistingUser body.Email env.TokenProvide,
               .CreateClinician (req.vars "clinicId")
                 { InviteId := env.freshKey, Email := body.Email, Roles := body.Roles },
               .setHeader "content-type" "application/json"] := by
          simp [SendClinicianInvite, htoken, hval, hclinic, hjson, hbody, Outcome.after,
            NewConfirmation, hcreate, hstatus, StatusOK, hvalid, hwrote]
        rw [heff, List.mem_append] at he
        rcases he with he | he
        · exact hadminclean e he
        · simp at he
          rcases he with rfl | rfl | rfl | rfl <;>
            simp [Effect.isStoreWrite, Effect.isNotification]
    · intro hlow hhigh
      have hvalid : validWriteHeaderCode response.StatusCode = true := by
        simp [validWriteHeaderCode, hlow, hhigh]
      have heff : (SendClinicianInvite env req).effects
          = (assertClinicAdmin env (req.vars "clinicId") token).effects ++
            [.GetClinic (req.vars "clinicId"),
             .findExistingUser body.Email env.TokenProvide,
             .CreateClinician (req.vars "clinicId")
               { InviteId := env.freshKey, Email := body.Email, Roles := body.Roles },
             .setHeader "content-type" "application/json",
             .WriteHeader response.StatusCode,
             .Write response.Body] := by
        simp [SendClinicianInvite, htoken, hval, hclinic, hjson, hbody, Outcome.after,
          NewConfirmation, hcreate, hstatus, StatusOK, hvalid]
      refine ⟨heff, ?_, ?_⟩
      · rw [heff]
        unfold responseCodes at hcodes ⊢
        rw [List.filterMap_append, hcodes]
        simp [Effect.responseCode]
      · simp [SendClinicianInvite, htoken, hval, hclinic, hjson, hbody, Outcome.after,
          NewConfirmation, hcreate, hstatus, StatusOK, hvalid]
  · intro c hc
    unfold SendClinicianInvite at hc ⊢
    cases htoken : env.token with
    | none => simp [htoken] at hc
    | some token =>
      have hadmin := assertClinicAdmin_no_store_write env (req.vars "clinicId") token c
      cases hval : (assertClinicAdmin env (req.vars "clinicId") token).val with
      | none => simp [htoken, hval, hadmin] at hc
      | some err =>
        cases err with
        | some err => simp [htoken, hval, hadmin] at hc
        | none =>
          cases hclinic : env.GetClinicWithResponse (req.vars "clinicId") with
          | error err => simp [htoken, hval, hadmin, hclinic, Outcome.after] at hc
          | ok clinicResponse =>
            cases hjson : clinicResponse.JSON200 with
            | none => simp [htoken, hval, hadmin, hclinic, hjson, Outcome.after] at hc
            | some clinic =>
              cases hbody : req.body with
              | error err =>
                simp [htoken, hval, hadmin, hclinic, hjson, hbody, Outcome.after] at hc
              | ok body =>
                cases hcreate : env.CreateClinicianWithResponse (req.vars "clinicId")
                    { InviteId := env.freshKey, Email := body.Email, Roles := body.Roles } with
                | error err =>
                  simp [htoken, hval, hadmin, hclinic, hjson, hbody, Outcome.after,
                    NewConfirmation, hcreate] at hc
                | ok response =>
                  by_cases hstatus : response.StatusCode = 200
                  · simp only [htoken, hval, hclinic, hjson, hbody, Outcome.after,
                      NewConfirmation, setInvitedUser_Key, setClinic_Key, hcreate, hstatus,
                      StatusOK, bne_self_eq_false, Bool.false_eq_true, if_false,
                      List.mem_append, List.mem_cons, List.mem_singleton, hadmin, false_or,
                      reduceCtorEq, List.not_mem_nil, or_false] at hc ⊢
                    have hkey := sendClinicianConfirmation_store_write env _ c hc
                    have hkey' : c.Key = env.freshKey := by rw [hkey]; simp
                    refine ⟨body, response, rfl, ?_, hstatus, ?_⟩
                    · rw [hkey']; exact hcreate
                    · rw [hkey']; simp
                  · by_cases hrelay : (validWriteHeaderCode response.StatusCode
                        || wroteHeader (assertClinicAdmin env (req.vars "clinicId")
                            token).effects) = true
                    · simp [htoken, hval, hadmin, hclinic, hjson, hbody, Outcome.after,
                        NewConfirmation, hcreate, hstatus, StatusOK, hrelay] at hc
                    · simp [htoken, hval, hadmin, hclinic, hjson, hbody, Outcome.after,
                        NewConfirmation, hcreate, hstatus, StatusOK, hrelay] at hc

/-- The claim C4 as amended, at a remote create that answers 409: the handler
relays 409 and the remote body after the lookups and the create call, and writes
nothing to the store. -/
theorem SendClinicianInvite_relays_remote_failure_witness :
    conflictEnv.CreateClinicianWithResponse "c1"
        { InviteId := "key-1", Email := "new@clinic.org", Roles := ["CLINIC_STAFF"] }
      = .ok { StatusCode := 409, Body := "duplicate" }
    ∧ (SendClinicianInvite conflictEnv exampleReq).effects
      = [.GetClinician "c1" "u1", .GetClinic "c1",
         .findExistingUser "new@clinic.org" "server-token",
         .CreateClinician "c1"
           { InviteId := "key-1", Email := "new@clinic.org", Roles := ["CLINIC_STAFF"] },
         .setHeader "content-type" "application/json", .WriteHeader 409, .Write "duplicate"]
    ∧ responseCodes (SendClinicianInvite conflictEnv exampleReq).effects = [409] :=
  have h := ((SendClinicianInvite_relays_remote_failure conflictEnv exampleReq).1
    { UserID := "u1", IsServer := false }
    { StatusCode := 200, JSON200 := some { Id := "c1", Name := "Clinic" } }
    { Id := "c1", Name := "Clinic" }
    { Email := "new@clinic.org", Roles := ["CLINIC_STAFF"] }
    { StatusCode := 409, Body := "duplicate" }
    rfl rfl rfl rfl rfl rfl rfl (by decide)).2 (by decide) (by decide)
  ⟨rfl, h.1, h.2.1⟩

/-- A call of `assertRecipientAuthorized` that returns nil has made the identity
lookup only, and the confirmation it was given exists. -/
theorem assertRecipientAuthorized_pass (env : Env) (req : Request) (token : TokenData)
    (confirmation : Option Confirmation)
    (h : (assertRecipientAuthorized env req token confirmation).val = some none) :
    (assertRecipientAuthorized env req token confirmation).effects
      = [.findExistingUser token.UserID req.sessionToken]
    ∧ confirmation ≠ none := by
  unfold assertRecipientAuthorized at h ⊢
  cases hserver : token.IsServer
  · cases huser : env.findExistingUser token.UserID req.sessionToken with
    | none => simp [hserver, huser] at h
    | some usr =>
      obtain ⟨uid, emails⟩ := usr
      cases confirmation with
      | none => simp [hserver, huser] at h
      | some c =>
        cases emails with
        | nil => simp [hserver, huser] at h
        | cons email0 rest =>
          by_cases heq : c.Email = email0
          · simp [heq]
          · simp [hserver, huser, heq] at h
  · simp [hserver] at h

/-- The claim C5: when `AcceptClinicianInvite` finds a pending confirmation and
the caller passes `assertRecipientAuthorized`, the remote association is called
at `(confirmation.ClinicId, inviteId)` with the user id of the token, and with
no other arguments. The confirmation is handed to the store, with status
`Completed`, exactly when that call answered 200 without transport error; then
the confirmation is `Completed`. Otherwise the confirmation is unchanged, its
status still `Pending`, and the store is not written. -/
theorem AcceptClinicianInvite_completes_iff_associated (env : Env) (req : Request)
    (token : TokenData) (conf : Confirmation)
    (htoken : env.token = some token)
    (hfound : env.findExistingConfirmation
        { Confirmation.zero with
          Key := req.vars "inviteId", UserId := req.vars "userId",
          Type' := .TypeClinicianInvite, Status := .StatusPending } = .ok (some conf))
    (hpending : conf.Status = .StatusPending)
    (hauth : (assertRecipientAuthorized env req token (some conf)).val = some none) :
    Effect.AssociateClinicianToUser conf.ClinicId (req.vars "inviteId") token.UserID
        ∈ (AcceptClinicianInvite env req).effects
    ∧ (∀ clinicId inviteId userId,
        Effect.AssociateClinicianToUser clinicId inviteId userId
            ∈ (AcceptClinicianInvite env req).effects →
          clinicId = conf.ClinicId ∧ inviteId = req.vars "inviteId" ∧ userId = token.UserID)
    ∧ ((∃ response,
          env.AssociateClinicianToUserWithResponse conf.ClinicId (req.vars "inviteId")
            token.UserID = .ok response ∧ response.StatusCode = 200)
        ↔ ∃ c, Effect.addOrUpdateConfirmation c ∈ (AcceptClinicianInvite env req).effects)
    ∧ ((∃ response,
          env.AssociateClinicianToUserWithResponse conf.ClinicId (req.vars "inviteId")
            token.UserID = .ok response ∧ response.StatusCode = 200)
        → (AcceptClinicianInvite env req).conf = some { conf with Status := .StatusCompleted }
          ∧ Effect.addOrUpdateConfirmation { conf with Status := .StatusCompleted }
              ∈ (AcceptClinicianInvite env req).effects
          ∧ ∀ c, Effect.addOrUpdateConfirmation c ∈ (AcceptClinicianInvite env req).effects →
              c = { conf with Status := .StatusCompleted })
    ∧ (¬ (∃ response,
          env.AssociateClinicianToUserWithResponse conf.ClinicId (req.vars "inviteId")
            token.UserID = .ok response ∧ response.StatusCode = 200)
        → (AcceptClinicianInvite env req).conf = some conf
          ∧ ((AcceptClinicianInvite env req).conf.map fun c => c.Status) = some .StatusPending
          ∧ ∀ e ∈ (AcceptClinicianInvite env req).effects, e.isStoreWrite = false) := by
  have heffects := (assertRecipientAuthorized_pass env req token (some conf) hauth).1
  unfold AcceptClinicianInvite
  simp only [htoken, hfound, hauth, heffects, Outcome.after]
  cases hassoc : env.AssociateClinicianToUserWithResponse conf.ClinicId (req.vars "inviteId")
      token.UserID with
  | error err =>
    simp [hpending, Effect.isStoreWrite]
  | ok response =>
    by_cases hstatus : response.StatusCode = 200
    · cases hsave : env.addOrUpdateConfirmation { conf with Status := .StatusCompleted } <;>
        simp [hstatus, hsave, StatusOK, Confirmation.UpdateStatus]
    · simp [hstatus, hpending, StatusOK, Effect.isStoreWrite]

/-- The claim C5 at the owner of `a@x.com` accepting the pending invite `inv-1`:
the association is called with the token's user id and the confirmation ends
`Completed`. -/
theorem AcceptClinicianInvite_completes_iff_associated_witness :
    pendingEnv.findExistingConfirmation
        { Confirmation.zero with
          Key := "inv-1", UserId := "u1", Type' := .TypeClinicianInvite,
          Status := .StatusPending } = .ok (some examplePending)
    ∧ examplePending.Status = .StatusPending
    ∧ Effect.AssociateClinicianToUser "c1" "inv-1" "u1"
        ∈ (AcceptClinicianInvite pendingEnv exampleReq).effects
    ∧ (AcceptClinicianInvite pendingEnv exampleReq).conf
        = some { examplePending with Status := .StatusCompleted } :=
  have h := AcceptClinicianInvite_completes_iff_associated pendingEnv exampleReq
    { UserID := "u1", IsServer := false } examplePending rfl rfl rfl rfl
  ⟨rfl, rfl, h.1, (h.2.2.2.1 ⟨{ StatusCode := 200, Body := "associated" }, rfl, rfl⟩).1⟩

/-- The claim C7: `cancelClinicianInviteWithStatus` calls the remote delete at
`(confirmation.ClinicId, confirmation.Key)` first and at no other place. The
confirmation gets the target status and is handed to the store exactly when the
delete answered 200 or 404 without transport error; for any other outcome the
confirmation is unchanged and the store is not written. A remote 404 with target
`Canceled` leaves the confirmation `Canceled`, also through
`CancelClinicianInvite`. -/
theorem cancelClinicianInviteWithStatus_updates_iff_deleted (env : Env) (conf : Confirmation)
    (statusUpdate : Status) :
    (cancelClinicianInviteWithStatus env conf statusUpdate).effects.head?
        = some (.DeleteInvitedClinician conf.ClinicId conf.Key)
    ∧ (∀ clinicId inviteId,
        Effect.DeleteInvitedClinician clinicId inviteId
            ∈ (cancelClinicianInviteWithStatus env conf statusUpdate).effects →
          clinicId = conf.ClinicId ∧ inviteId = conf.Key)
    ∧ ((∃ response,
          env.DeleteInvitedClinicianWithResponse conf.ClinicId conf.Key = .ok response
          ∧ (response.StatusCode = 200 ∨ response.StatusCode = 404))
        ↔ ∃ c, Effect.addOrUpdateConfirmation c
            ∈ (cancelClinicianInviteWithStatus env conf statusUpdate).effects)
    ∧ ((∃ response,
          env.DeleteInvitedClinicianWithResponse conf.ClinicId conf.Key = .ok response
          ∧ (response.StatusCode = 200 ∨ response.StatusCode = 404))
        → (cancelClinicianInviteWithStatus env conf statusUpdate).conf
            = some { conf with Status := statusUpdate }
          ∧ ∀ c, Effect.addOrUpdateConfirmation c
              ∈ (cancelClinicianInviteWithStatus env conf statusUpdate).effects →
            c = { conf with Status := statusUpdate })
    ∧ (¬ (∃ response,
          env.DeleteInvitedClinicianWithResponse conf.ClinicId conf.Key = .ok response
          ∧ (response.StatusCode = 200 ∨ response.StatusCode = 404))
        → (cancelClinicianInviteWithStatus env conf statusUpdate).conf = some conf
          ∧ ∀ e ∈ (cancelClinicianInviteWithStatus env conf statusUpdate).effects,
              e.isStoreWrite = false)
    ∧ (∀ response,
        env.DeleteInvitedClinicianWithResponse conf.ClinicId conf.Key = .ok response →
        response.StatusCode = 404 →
        (cancelClinicianInviteWithStatus env conf .StatusCanceled).conf
            = some { conf with Status := .StatusCanceled }
        ∧ ∀ (req : Request) (token : TokenData),
            env.token = some token →
            (assertClinicAdmin env (req.vars "clinicId") token).val = some none →
            env.findExistingConfirmation
              { Confirmation.zero with
                Key := req.vars "inviteId", ClinicId := req.vars "clinicId",
                Type' := .TypeClinicianInvite, Status := .StatusPending } = .ok (some conf) →
            (CancelClinicianInvite env req).conf
              = some { conf with Status := .StatusCanceled }) := by
  have hhandler : ∀ (req : Request) (token : TokenData),
      env.token = some token →
      (assertClinicAdmin env (req.vars "clinicId") token).val = some none →
      env.findExistingConfirmation
        { Confirmation.zero with
          Key := req.vars "inviteId", ClinicId := req.vars "clinicId",
          Type' := .TypeClinicianInvite, Status := .StatusPending } = .ok (some conf) →
      (CancelClinicianInvite env req).conf
        = (cancelClinicianInviteWithStatus env conf .StatusCanceled).conf := by
    intro req token htoken hval hfound
    simp [CancelClinicianInvite, htoken, hval, hfound, Outcome.after]
  have hcanceled : ∀ response,
      env.DeleteInvitedClinicianWithResponse conf.ClinicId conf.Key = .ok response →
      response.StatusCode = 404 →
      (cancelClinicianInviteWithStatus env conf .StatusCanceled).conf
        = some { conf with Status := .StatusCanceled } := by
    intro response hdelete h404
    unfold cancelClinicianInviteWithStatus
    cases hsave : env.addOrUpdateConfirmation { conf with Status := .StatusCanceled } <;>
      simp [hdelete, h404, hsave, StatusOK, StatusNotFound, Confirmation.UpdateStatus]
  refine ⟨?_, ?_, ?_, ?_, ?_, ?_⟩
  case refine_6 =>
    intro response hdelete h404
    refine ⟨hcanceled response hdelete h404, ?_⟩
    intro req token htoken hval hfound
    rw [hhandler req token htoken hval hfound]
    exact hcanceled response hdelete h404
  all_goals
    unfold cancelClinicianInviteWithStatus
    cases hdelete : env.DeleteInvitedClinicianWithResponse conf.ClinicId conf.Key with
    | error err => simp [Effect.isStoreWrite]
    | ok response =>
      by_cases h200 : response.StatusCode = 200
      · cases hsave : env.addOrUpdateConfirmation { conf with Status := statusUpdate } <;>
          simp [h200, hsave, StatusOK, StatusNotFound, Confirmation.UpdateStatus]
      · by_cases h404 : response.StatusCode = 404
        · cases hsave : env.addOrUpdateConfirmation { conf with Status := statusUpdate } <;>
            simp [h404, hsave, StatusOK, StatusNotFound, Confirmation.UpdateStatus]
        · simp [h200, h404, StatusOK, StatusNotFound, Effect.isStoreWrite]

/-- The claim C7 at a remote delete that answers 404 during
`CancelClinicianInvite`: the invite ends `Canceled` and is written to the
store. -/
theorem cancelClinicianInviteWithStatus_updates_iff_deleted_witness :
    goneEnv.DeleteInvitedClinicianWithResponse "c1" "inv-1" = .ok { StatusCode := 404, Body := "" }
    ∧ (CancelClinicianInvite goneEnv exampleReq).conf
        = some { examplePending with Status := .StatusCanceled }
    ∧ (∃ c, Effect.addOrUpdateConfirmation c
        ∈ (cancelClinicianInviteWithStatus goneEnv examplePending .StatusCanceled).effects) :=
  have h := cancelClinicianInviteWithStatus_updates_iff_deleted goneEnv examplePending
    .StatusCanceled
  ⟨rfl,
   (h.2.2.2.2.2 { StatusCode := 404, Body := "" } rfl rfl).2 exampleReq
     { UserID := "u1", IsServer := false } rfl rfl rfl,
   h.2.2.1.mp ⟨{ StatusCode := 404, Body := "" }, rfl, Or.inr rfl⟩⟩

/-- The claim C6 at its failing input, a resend by an admin with the remote
invite `inv-1` for `a@x.com` present and no pending confirmation in the store:
the confirmation built in the `if confirmation == nil` block is bound to a new
variable of that block, the outer pointer stays nil, and the handler ends in a
nil dereference after the store lookup, with nothing written to the store, no
notification and no response. -/
theorem ResendClinicianInvite_without_local_record_panics :
    exampleEnv.GetInvitedClinicianWithResponse "c1" "inv-1"
      = .ok { StatusCode := 200, Body := "invite", JSON200 := some { Email := "a@x.com" } }
    ∧ exampleEnv.findExistingConfirmation
        { Confirmation.zero with
          Key := "inv-1", Type' := .TypeClinicianInvite, Status := .StatusPending } = .ok none
    ∧ ResendClinicianInvite exampleEnv exampleReq
      = ⟨[.GetClinician "c1" "u1", .GetClinic "c1", .GetInvitedClinician "c1" "inv-1",
          .findExistingConfirmation
            { Confirmation.zero with
              Key := "inv-1", Type' := .TypeClinicianInvite, Status := .StatusPending }],
         none, true⟩ := by
  refine ⟨rfl, rfl, rfl⟩

/-- The claim C8 fails as stated: with no pending confirmation in the store, a
non-server caller of `AcceptClinicianInvite` or `DismissClinicianInvite` gets
the response 401, not 404. -/
theorem AcceptClinicianInvite_not_found_is_401_counterexample :
    exampleEnv.token = some { UserID := "u1", IsServer := false }
    ∧ exampleEnv.findExistingConfirmation
        { Confirmation.zero with
          Key := "inv-1", UserId := "u1", Type' := .TypeClinicianInvite,
          Status := .StatusPending } = .ok none
    ∧ responseCodes (AcceptClinicianInvite exampleEnv exampleReq).effects = [401]
    ∧ responseCodes (DismissClinicianInvite exampleEnv exampleReq).effects = [401]
    ∧ 404 ∉ responseCodes (AcceptClinicianInvite exampleEnv exampleReq).effects
    ∧ 404 ∉ responseCodes (DismissClinicianInvite exampleEnv exampleReq).effects := by
  refine ⟨rfl, rfl, rfl, rfl, ?_, ?_⟩ <;> decide

/-- The claim C8 as amended: for a non-server caller and an invite key for which
the store finds no pending clinician-invite confirmation matching
`{Key, UserId}`, `AcceptClinicianInvite` and `DismissClinicianInvite` answer 401
(Unauthorized) after the store lookup and the identity lookup; they make no
remote association or delete call and do not write to the store. -/
theorem accept_dismiss_without_confirmation_unauthorized (env : Env) (req : Request)
    (token : TokenData)
    (htoken : env.token = some token)
    (hnonserver : token.IsServer = false)
    (hnone : env.findExistingConfirmation
        { Confirmation.zero with
          Key := req.vars "inviteId", UserId := req.vars "userId",
          Type' := .TypeClinicianInvite, Status := .StatusPending } = .ok none) :
    AcceptClinicianInvite env req
      = ⟨[.findExistingConfirmation
            { Confirmation.zero with
              Key := req.vars "inviteId", UserId := req.vars "userId",
              Type' := .TypeClinicianInvite, Status := .StatusPending },
          .findExistingUser token.UserID req.sessionToken, unauthorizedResponse], none, false⟩
    ∧ DismissClinicianInvite env req
      = ⟨[.findExistingConfirmation
            { Confirmation.zero with
              Key := req.vars "inviteId", UserId := req.vars "userId",
              Type' := .TypeClinicianInvite, Status := .StatusPending },
          .findExistingUser token.UserID req.sessionToken, unauthorizedResponse], none, false⟩
    ∧ responseCodes (AcceptClinicianInvite env req).effects = [401]
    ∧ responseCodes (DismissClinicianInvite env req).effects = [401]
    ∧ (∀ out ∈ [AcceptClinicianInvite env req, DismissClinicianInvite env req],
        ∀ e ∈ out.effects, e.isRemoteMutation = false ∧ e.isStoreWrite = false) := by
  have hauth : assertRecipientAuthorized env req token none
      = ⟨[.findExistingUser token.UserID req.sessionToken, unauthorizedResponse],
         some (some "unauthorized")⟩ := by
    unfold assertRecipientAuthorized
    cases huser : env.findExistingUser token.UserID req.sessionToken <;> simp [hnonserver]
  have haccept : AcceptClinicianInvite env req
      = ⟨[.findExistingConfirmation
            { Confirmation.zero with
              Key := req.vars "inviteId", UserId := req.vars "userId",
              Type' := .TypeClinicianInvite, Status := .StatusPending },
          .findExistingUser token.UserID req.sessionToken, unauthorizedResponse],
         none, false⟩ := by
    simp [AcceptClinicianInvite, htoken, hnone, hauth, Outcome.after]
  have hdismiss : DismissClinicianInvite env req
      = ⟨[.findExistingConfirmation
            { Confirmation.zero with
              Key := req.vars "inviteId", UserId := req.vars "userId",
              Type' := .TypeClinicianInvite, Status := .StatusPending },
          .findExistingUser token.UserID req.sessionToken, unauthorizedResponse],
         none, false⟩ := by
    simp [DismissClinicianInvite, htoken, hnone, hauth, Outcome.after]
  refine ⟨haccept, hdismiss, ?_, ?_, ?_⟩
  · rw [haccept]; rfl
  · rw [hdismiss]; rfl
  · intro out hout e he
    simp only [haccept, hdismiss, List.mem_cons, List.mem_singleton, List.not_mem_nil,
      or_false, or_self] at hout
    subst hout
    simp at he
    rcases he with rfl | rfl | rfl <;>
      simp [Effect.isRemoteMutation, Effect.isStoreWrite, unauthorizedResponse]

/-- The claim C8 as amended, at a caller whose invite `inv-1` is no longer
pending in the store: accept and dismiss answer 401 and touch nothing. -/
theorem accept_dismiss_without_confirmation_unauthorized_witness :
    exampleEnv.findExistingConfirmation
        { Confirmation.zero with
          Key := "inv-1", UserId := "u1", Type' := .TypeClinicianInvite,
          Status := .StatusPending } = .ok none
    ∧ AcceptClinicianInvite exampleEnv exampleReq
      = ⟨[.findExistingConfirmation
            { Confirmation.zero with
              Key := "inv-1", UserId := "u1", Type' := .TypeClinicianInvite,
              Status := .StatusPending },
          .findExistingUser "u1" "session", unauthorizedResponse], none, false⟩
    ∧ responseCodes (DismissClinicianInvite exampleEnv exampleReq).effects = [401] :=
  have h := accept_dismiss_without_confirmation_unauthorized exampleEnv exampleReq
    { UserID := "u1", IsServer := false } rfl rfl rfl
  ⟨rfl, h.1, h.2.2.2.1⟩

/-- The claim C9: when the caller of `CancelClinicianInvite` passes
`assertClinicAdmin` and the store lookup by
`{Key = inviteId, ClinicId = clinicId, Type = clinician invite, Status = Pending}`
succeeds without finding a confirmation, the handler answers 404 (NotFound)
right after the lookup: the remote delete is not called and nothing is written
to the store. When the admin check wrote no response, 404 is the only status
written. -/
theorem CancelClinicianInvite_not_found (env : Env) (req : Request) (token : TokenData)
    (htoken : env.token = some token)
    (hadmin : (assertClinicAdmin env (req.vars "clinicId") token).val = some none)
    (hnone : env.findExistingConfirmation
        { Confirmation.zero with
          Key := req.vars "inviteId", ClinicId := req.vars "clinicId",
          Type' := .TypeClinicianInvite, Status := .StatusPending } = .ok none) :
    CancelClinicianInvite env req
      = ⟨(assertClinicAdmin env (req.vars "clinicId") token).effects ++
          [.findExistingConfirmation
            { Confirmation.zero with
              Key := req.vars "inviteId", ClinicId := req.vars "clinicId",
              Type' := .TypeClinicianInvite, Status := .StatusPending },
           .sendModel (.statusError StatusNotFound .statusInviteNotFoundMessage) StatusNotFound],
         none, false⟩
    ∧ (responseCodes (CancelClinicianInvite env req).effects).getLast? = some 404
    ∧ (responseCodes (assertClinicAdmin env (req.vars "clinicId") token).effects = [] →
        responseCodes (CancelClinicianInvite env req).effects = [404])
    ∧ (∀ e ∈ (CancelClinicianInvite env req).effects,
        e.isRemoteMutation = false ∧ e.isStoreWrite = false) := by
  have hcancel : CancelClinicianInvite env req
      = ⟨(assertClinicAdmin env (req.vars "clinicId") token).effects ++
          [.findExistingConfirmation
            { Confirmation.zero with
              Key := req.vars "inviteId", ClinicId := req.vars "clinicId",
              Type' := .TypeClinicianInvite, Status := .StatusPending },
           .sendModel (.statusError StatusNotFound .statusInviteNotFoundMessage) StatusNotFound],
         none, false⟩ := by
    simp [CancelClinicianInvite, htoken, hadmin, hnone, Outcome.after]
  have hcodes : responseCodes (CancelClinicianInvite env req).effects
      = responseCodes (assertClinicAdmin env (req.vars "clinicId") token).effects ++ [404] := by
    rw [hcancel]
    simp [responseCodes, List.filterMap_append, Effect.responseCode, StatusNotFound]
  refine ⟨hcancel, ?_, ?_, ?_⟩
  · rw [hcodes]; simp
  · intro h; rw [hcodes, h]; rfl
  · intro e he
    rw [hcancel] at he
    simp only [List.mem_append, List.mem_cons, List.mem_singleton, List.not_mem_nil,
      or_false] at he
    rcases he with he | rfl | rfl
    · rcases assertClinicAdmin_effects env _ token e he with rfl | hresp
      · simp [Effect.isRemoteMutation, Effect.isStoreWrite]
      · cases e <;> simp [Effect.responseCode] at hresp <;>
          simp [Effect.isRemoteMutation, Effect.isStoreWrite]
    · simp [Effect.isRemoteMutation, Effect.isStoreWrite]
    · simp [Effect.isRemoteMutation, Effect.isStoreWrite]

/-- The claim C9 at an admin canceling the invite `inv-1`, which the store does
not hold as pending: the answer is 404 and nothing is deleted or written. -/
theorem CancelClinicianInvite_not_found_witness :
    (assertClinicAdmin exampleEnv "c1" { UserID := "u1", IsServer := false }).val = some none
    ∧ exampleEnv.findExistingConfirmation
        { Confirmation.zero with
          Key := "inv-1", ClinicId := "c1", Type' := .TypeClinicianInvite,
          Status := .StatusPending } = .ok none
    ∧ responseCodes (CancelClinicianInvite exampleEnv exampleReq).effects = [404]
    ∧ (∀ e ∈ (CancelClinicianInvite exampleEnv exampleReq).effects,
        e.isRemoteMutation = false ∧ e.isStoreWrite = false) :=
  have h := CancelClinicianInvite_not_found exampleEnv exampleReq
    { UserID := "u1", IsServer := false } rfl rfl rfl
  ⟨rfl, rfl, h.2.2.1 rfl, h.2.2.2⟩

/-- The claim C10 fails as stated: for a caller listing the invites of their own
user id whose account resolves with an empty email list, the handler does not
query the store at all; it fails at `invitedUsr.Emails[0]` after the identity
lookup, without a response. -/
theorem GetClinicianInvitations_no_email_counterexample :
    noEmailEnv.token = some { UserID := "u1", IsServer := false }
    ∧ exampleReq.vars "userId" = "u1"
    ∧ noEmailEnv.findExistingUser "u1" "session" = some { UserID := "u1", Emails := [] }
    ∧ GetClinicianInvitations noEmailEnv exampleReq
        = ⟨[.findExistingUser "u1" "session"], none, true⟩
    ∧ (GetClinicianInvitations noEmailEnv exampleReq).effects.filter Effect.isStoreQuery = [] := by
  refine ⟨rfl, rfl, rfl, rfl, rfl⟩

/-- The run of `GetClinicianInvitations` for a caller listing their own invites
whose account resolves with a first email. -/
theorem GetClinicianInvitations_resolved (env : Env) (req : Request) (token : TokenData)
    (uid email0 : String) (rest : List String)
    (htoken : env.token = some token)
    (hsame : req.vars "userId" = token.UserID)
    (huser : env.findExistingUser (req.vars "userId") req.sessionToken
      = some { UserID := uid, Emails := email0 :: rest }) :
    GetClinicianInvitations env req
      = Outcome.after
          [.findExistingUser (req.vars "userId") req.sessionToken,
           .FindConfirmations
             { Confirmation.zero with Email := email0, Type' := .TypeClinicianInvite }
             .StatusPending,
           .checkFoundConfirmations
             (env.FindConfirmations
               { Confirmation.zero with Email := email0, Type' := .TypeClinicianInvite }
               .StatusPending).1
             (env.FindConfirmations
               { Confirmation.zero with Email := email0, Type' := .TypeClinicianInvite }
               .StatusPending).2]
          (match checkFoundConfirmations
              (env.FindConfirmations
                { Confirmation.zero with Email := email0, Type' := .TypeClinicianInvite }
                .StatusPending).1
              (env.FindConfirmations
                { Confirmation.zero with Email := email0, Type' := .TypeClinicianInvite }
                .StatusPending).2 with
            | none => ⟨[], none, false⟩
            | some invites =>
              ⟨[.ensureIdSet (req.vars "userId") invites, .logMetric "get_clinician_invitations",
                .sendModel (.confirmations (ensureIdSet (req.vars "userId") invites))
                  StatusOK],
               none, false⟩) := by
  have huser' := huser
  rw [hsame] at huser'
  unfold GetClinicianInvitations
  simp [htoken, huser', hsame, Outcome.after]

/-- The claim C10 as amended: `GetClinicianInvitations` answers 401 without
querying the store whenever the `userId` path variable differs from the user id
of the token or the identity lookup resolves no account. Otherwise, for every
resolved account that has at least one email, it queries the store exactly once,
with the filter `{Email = first email, Type = clinician invite}` and status
`Pending`, and returns the found confirmations in the order the store returned
them: every list of confirmations it responds with is the list of the store,
element by element with the key echoed into the id field, with status 200, and
it does respond with that list when the query succeeded and found some. -/
theorem GetClinicianInvitations_amended (env : Env) (req : Request) (token : TokenData)
    (htoken : env.token = some token) :
    ((req.vars "userId" ≠ token.UserID
        ∨ env.findExistingUser (req.vars "userId") req.sessionToken = none) →
      GetClinicianInvitations env req
        = ⟨[.findExistingUser (req.vars "userId") req.sessionToken, unauthorizedResponse],
           none, false⟩
      ∧ responseCodes (GetClinicianInvitations env req).effects = [401]
      ∧ (GetClinicianInvitations env req).effects.filter Effect.isStoreQuery = [])
    ∧ (∀ usr email0 rest,
        req.vars "userId" = token.UserID →
        env.findExistingUser (req.vars "userId") req.sessionToken = some usr →
        usr.Emails = email0 :: rest →
        (GetClinicianInvitations env req).effects.filter Effect.isStoreQuery
          = [.FindConfirmations
              { Confirmation.zero with Email := email0, Type' := .TypeClinicianInvite }
              .StatusPending]
        ∧ (∀ invites code,
            Effect.sendModel (.confirmations invites) code
              ∈ (GetClinicianInvitations env req).effects →
            code = 200
            ∧ invites
              = (env.FindConfirmations
                  { Confirmation.zero with Email := email0, Type' := .TypeClinicianInvite }
                  .StatusPending).1.map fun c => { c with Id := c.Key })
        ∧ ((env.FindConfirmations
              { Confirmation.zero with Email := email0, Type' := .TypeClinicianInvite }
              .StatusPending).2 = none →
            (env.FindConfirmations
              { Confirmation.zero with Email := email0, Type' := .TypeClinicianInvite }
              .StatusPending).1 ≠ [] →
            (GetClinicianInvitations env req).effects.getLast?
              = some (.sendModel (.confirmations
                  ((env.FindConfirmations
                    { Confirmation.zero with Email := email0, Type' := .TypeClinicianInvite }
                    .StatusPending).1.map fun c => { c with Id := c.Key })) StatusOK)
            ∧ responseCodes (GetClinicianInvitations env req).effects = [200]
            ∧ (GetClinicianInvitations env req).panicked = false)) := by
  constructor
  · intro hrefused
    have hout : GetClinicianInvitations env req
        = ⟨[.findExistingUser (req.vars "userId") req.sessionToken, unauthorizedResponse],
           none, false⟩ := by
      unfold GetClinicianInvitations
      cases huser : env.findExistingUser (req.vars "userId") req.sessionToken with
      | none => simp [htoken, huser, Outcome.after]
      | some usr =>
        rcases hrefused with hne | hnone
        · simp [htoken, huser, hne, Outcome.after]
        · rw [huser] at hnone; cases hnone
    refine ⟨hout, ?_, ?_⟩ <;> rw [hout] <;> rfl
  · intro usr email0 rest hsame huser hemails
    obtain ⟨uid, emails⟩ := usr
    simp only at hemails
    subst hemails
    rw [GetClinicianInvitations_resolved env req token uid email0 rest htoken hsame huser]
    generalize env.FindConfirmations
      { Confirmation.zero with Email := email0, Type' := .TypeClinicianInvite }
      .StatusPending = found
    obtain ⟨cs, err⟩ := found
    cases err with
    | some err =>
      simp [checkFoundConfirmations, Outcome.after, Effect.isStoreQuery, List.filter]
    | none =>
      cases cs with
      | nil => simp [checkFoundConfirmations, Outcome.after, Effect.isStoreQuery, List.filter]
      | cons c cs =>
        simp [checkFoundConfirmations, ensureIdSet, Outcome.after, Effect.isStoreQuery,
          List.filter, responseCodes, Effect.responseCode, StatusOK]

/-- The claim C10 as amended, at the owner of `a@x.com` listing their invites
while the store answers the pending invites `inv-2` and `inv-1` in that order:
one store query by the first email, and the 200 response carries `inv-2` before
`inv-1`, each with its key as id. -/
theorem GetClinicianInvitations_amended_witness :
    pendingEnv.token = some { UserID := "u1", IsServer := false }
    ∧ pendingEnv.FindConfirmations
        { Confirmation.zero with Email := "a@x.com", Type' := .TypeClinicianInvite }
        .StatusPending = ([exampleSecond, examplePending], none)
    ∧ (GetClinicianInvitations pendingEnv exampleReq).effects.filter Effect.isStoreQuery
        = [.FindConfirmations
            { Confirmation.zero with Email := "a@x.com", Type' := .TypeClinicianInvite }
            .StatusPending]
    ∧ (GetClinicianInvitations pendingEnv exampleReq).effects.getLast?
        = some (.sendModel (.confirmations
            [{ exampleSecond with Id := "inv-2" }, { examplePending with Id := "inv-1" }])
            StatusOK)
    ∧ responseCodes (GetClinicianInvitations pendingEnv exampleReq).effects = [200] :=
  have h := (GetClinicianInvitations_amended pendingEnv exampleReq
    { UserID := "u1", IsServer := false } rfl).2
    { UserID := "u1", Emails := ["a@x.com"] } "a@x.com" [] rfl rfl rfl
  have hsent := h.2.2 rfl (by decide)
  ⟨rfl, rfl, h.1, hsent.1, hsent.2.1⟩

/-! ## Further properties -/

/-- A transport error of the clinician lookup stops `SendClinicianInvite`,
`ResendClinicianInvite` and `CancelClinicianInvite` for a non-server caller:
`assertClinicAdmin` writes a 500 error and returns the error, and the handlers
do nothing after the lookup. -/
theorem lookup_transport_error_stops_handlers (env : Env) (req : Request) (token : TokenData)
    (err : GoError)
    (htoken : env.token = some token)
    (hnonserver : token.IsServer = false)
    (hlookup : env.GetClinicianWithResponse (req.vars "clinicId") token.UserID = .error err) :
    (assertClinicAdmin env (req.vars "clinicId") token).val = some (some err)
    ∧ SendClinicianInvite env req
        = ⟨[.GetClinician (req.vars "clinicId") token.UserID,
            .sendError StatusInternalServerError .STATUS_ERR_FINDING_USR (some err)],
           none, false⟩
    ∧ ResendClinicianInvite env req
        = ⟨[.GetClinician (req.vars "clinicId") token.UserID,
            .sendError StatusInternalServerError .STATUS_ERR_FINDING_USR (some err)],
           none, false⟩
    ∧ CancelClinicianInvite env req
        = ⟨[.GetClinician (req.vars "clinicId") token.UserID,
            .sendError StatusInternalServerError .STATUS_ERR_FINDING_USR (some err)],
           none, false⟩ := by
  have hadmin := assertClinicAdmin_transport_error env (req.vars "clinicId") token err
    hnonserver hlookup
  refine ⟨by rw [hadmin], ?_, ?_, ?_⟩
  · simp [SendClinicianInvite, htoken, hadmin]
  · simp [ResendClinicianInvite, htoken, hadmin]
  · simp [CancelClinicianInvite, htoken, hadmin]

/-- The transport-error property at a clinic service that cannot be reached. -/
theorem lookup_transport_error_stops_handlers_witness :
    CancelClinicianInvite
        { pendingEnv with GetClinicianWithResponse := fun _ _ => .error "connection refused" }
        exampleReq
      = ⟨[.GetClinician "c1" "u1",
          .sendError StatusInternalServerError .STATUS_ERR_FINDING_USR
            (some "connection refused")],
         none, false⟩ :=
  (lookup_transport_error_stops_handlers
    { pendingEnv with GetClinicianWithResponse := fun _ _ => .error "connection refused" }
    exampleReq { UserID := "u1", IsServer := false } "connection refused" rfl rfl rfl).2.2.2

/-- A server token passes `assertClinicAdmin` without a clinician lookup and
without a response, whatever the clinic service would answer. -/
theorem server_token_is_clinic_admin (env : Env) (clinicId : String) (token : TokenData)
    (hserver : token.IsServer = true) :
    (assertClinicAdmin env clinicId token).val = some none
    ∧ (assertClinicAdmin env clinicId token).effects = [] := by
  rw [assertClinicAdmin_server env clinicId token hserver]
  exact ⟨rfl, rfl⟩

/-- The server-token property at a clinic service that knows the caller as staff
only. -/
theorem server_token_is_clinic_admin_witness :
    (assertClinicAdmin staffEnv "c1" { UserID := "service", IsServer := true }).val = some none
    ∧ (assertClinicAdmin staffEnv "c1" { UserID := "service", IsServer := true }).effects = [] :=
  server_token_is_clinic_admin staffEnv "c1" { UserID := "service", IsServer := true } rfl

/-- A resend that finds the pending confirmation in the store hands it to the
store again with the same key and status, the email of the remote invite and the
id of the fetched clinic, and does not call the remote create. -/
theorem ResendClinicianInvite_refreshes_existing (env : Env) (req : Request)
    (token : TokenData) (clinicResponse : GetClinicResponse) (clinic : Clinic)
    (inviteReponse : GetInvitedClinicianResponse) (invited : InvitedClinician)
    (confirmation : Confirmation)
    (htoken : env.token = some token)
    (hadmin : (assertClinicAdmin env (req.vars "clinicId") token).val = some none)
    (hclinic : env.GetClinicWithResponse (req.vars "clinicId") = .ok clinicResponse)
    (hjson : clinicResponse.JSON200 = some clinic)
    (hinvite : env.GetInvitedClinicianWithResponse (req.vars "clinicId") (req.vars "inviteId")
      = .ok inviteReponse)
    (hstatus : inviteReponse.StatusCode = 200)
    (hinvited : inviteReponse.JSON200 = some invited)
    (hfound : env.findExistingConfirmation
        { Confirmation.zero with
          Key := req.vars "inviteId", Type' := .TypeClinicianInvite,
          Status := .StatusPending } = .ok (some confirmation)) :
    (∃ c, Effect.addOrUpdateConfirmation c ∈ (ResendClinicianInvite env req).effects
        ∧ c.Key = confirmation.Key ∧ c.Status = confirmation.Status
        ∧ c.Email = invited.Email ∧ c.ClinicId = clinic.Id
        ∧ c.Creator.ClinicName = clinic.Name)
    ∧ (∀ clinicId body,
        Effect.CreateClinician clinicId body ∉ (ResendClinicianInvite env req).effects)
    ∧ (ResendClinicianInvite env req).panicked = false := by
  have hrun : ResendClinicianInvite env req
      = Outcome.after
          ((assertClinicAdmin env (req.vars "clinicId") token).effects ++
            [.GetClinic (req.vars "clinicId"),
             .GetInvitedClinician (req.vars "clinicId") (req.vars "inviteId"),
             .findExistingConfirmation
               { Confirmation.zero with
                 Key := req.vars "inviteId", Type' := .TypeClinicianInvite,
                 Status := .StatusPending },
             .findExistingUser invited.Email env.TokenProvide])
          (sendClinicianConfirmation env
            (setInvitedUser env (setClinic { confirmation with Email := invited.Email } clinic)
              invited.Email)) := by
    simp [ResendClinicianInvite, htoken, hadmin, hclinic, hjson, hinvite, hstatus, hinvited,
      hfound, Outcome.after, StatusOK, setClinic]
  have hsend : ∀ c0 : Confirmation,
      Effect.addOrUpdateConfirmation c0 ∈ (sendClinicianConfirmation env c0).effects
      ∧ (∀ clinicId body,
          Effect.CreateClinician clinicId body ∉ (sendClinicianConfirmation env c0).effects)
      ∧ (sendClinicianConfirmation env c0).panicked = false := by
    intro c0
    unfold sendClinicianConfirmation
    split
    · split
      · simp
      · split <;> (dsimp only; split <;> simp)
    · simp
  refine ⟨⟨setInvitedUser env (setClinic { confirmation with Email := invited.Email } clinic)
    invited.Email, ?_, ?_⟩, ?_, ?_⟩
  · rw [hrun]
    exact List.mem_append_right _ (hsend _).1
  · simp [setClinic]
  · intro clinicId body hmem
    rw [hrun] at hmem
    simp only [Outcome.after, List.mem_append, List.mem_cons, List.mem_singleton,
      List.not_mem_nil, or_false, reduceCtorEq, false_or] at hmem
    rcases hmem with hmem | hmem
    · rcases assertClinicAdmin_effects env _ token _ hmem with h | h
      · cases h
      · simp [Effect.responseCode] at h
    · exact (hsend _).2.1 clinicId body hmem
  · rw [hrun]
    exact (hsend _).2.2

/-- The resend property at an admin resending the pending invite `inv-1`. -/
theorem ResendClinicianInvite_refreshes_existing_witness :
    (∃ c, Effect.addOrUpdateConfirmation c ∈ (ResendClinicianInvite pendingEnv exampleReq).effects
        ∧ c.Key = "inv-1" ∧ c.Status = .StatusPending ∧ c.Email = "a@x.com"
        ∧ c.ClinicId = "c1" ∧ c.Creator.ClinicName = "Clinic")
    ∧ (ResendClinicianInvite pendingEnv exampleReq).panicked = false :=
  have h := ResendClinicianInvite_refreshes_existing pendingEnv exampleReq
    { UserID := "u1", IsServer := false }
    { StatusCode := 200, JSON200 := some { Id := "c1", Name := "Clinic" } }
    { Id := "c1", Name := "Clinic" }
    { StatusCode := 200, Body := "invite", JSON200 := some { Email := "a@x.com" } }
    { Email := "a@x.com" } examplePending rfl rfl rfl rfl rfl rfl rfl rfl
  ⟨h.1, h.2.2⟩

end Hydrophone
